import Mathlib

/-!
Verification development for the checkerboard spin-market simulator
(two-sublattice Ising-like market model with heat-bath updates).

The Python source is embedded shallowly:

- a sublattice array (numpy 2D array of spins) becomes a list of rows
  of integers (Grid);
- numpy indexing, including negative wrap-around indices, is made explicit
  (pyIdx, npGet);
- the stream of values produced by random.random() becomes an explicit
  function from draw counters to real numbers, threaded through each update;
- np.random.choice selections are passed in as explicit index lists;
- Python float arithmetic is modelled by exact real / rational arithmetic
  (the model ignores floating-point rounding); numpy division by zero,
  which yields inf/nan with only a warning, is modelled by a dedicated
  marker value rather than an error.
-/

namespace SpinSim

/-! ## Embedded definitions -/

/-- Python and numpy index semantics: a negative index counts from the end of
the axis (this is exact for the index ranges the simulator produces, which
never go below minus the axis length). -/
def pyIdx (n : ℕ) (i : ℤ) : ℕ := (if i < 0 then (n : ℤ) + i else i).toNat

/-- One sublattice array: a list of rows of integer spin states. -/
abbrev Grid := List (List ℤ)

/-- Number of rows, mirroring numpy shape[0]. -/
def shape0 (g : Grid) : ℕ := g.length

/-- Number of columns, mirroring numpy shape[1] of a rectangular array. -/
def shape1 (g : Grid) : ℕ := (g.headD []).length

/-- Read one cell with plain natural indices; out-of-range reads default to 0. -/
def cell (g : Grid) (r c : ℕ) : ℤ := (g.getD r []).getD c 0

/-- Read one cell with numpy integer-index semantics (negative indices wrap). -/
def npGet (g : Grid) (r c : ℤ) : ℤ := cell g (pyIdx (shape0 g) r) (pyIdx (shape1 g) c)

/-- Overwrite one cell of a grid. -/
def setCell (g : Grid) (r c : ℕ) (v : ℤ) : Grid := g.set r ((g.getD r []).set c v)

/-- Row-major list of all (row, col) loop positions of an H x W array,
mirroring the nested for row / for col loops of the source. -/
def positions (h w : ℕ) : List (ℕ × ℕ) :=
  ((List.range h).map (fun r => (List.range w).map (fun c => (r, c)))).flatten

/-- Sum of all entries of a grid, mirroring np.sum over a sublattice. -/
def gridSum (g : Grid) : ℤ := (g.map (fun row => row.sum)).sum

/-! ## Neighbour topology

Embeds SpinSystem._compute_neighbour_sum of src/source/spinsystem.py
(lines 57-86); the same function appears verbatim in
src/old_files/krachspinsystem.py and src/old_files/advantagespinsystem.py.
The upper row index row - 1 and the left column index col - 1 are left
negative in the source and resolved by numpy negative indexing. -/

/-- Neighbour sum of the base variant: up + down + self-aligned + horizontal,
all read from the fixed opposite sublattice (source array). -/
def compute_neighbour_sum (is_black : Bool) (source : Grid) (row col : ℕ) : ℤ :=
  let grid_height := shape0 source
  let grid_width := shape1 source
  let lower_neighbor_row : ℤ := if row + 1 < grid_height then (row : ℤ) + 1 else 0
  let upper_neighbor_row : ℤ := (row : ℤ) - 1
  let right_neighbor_col : ℤ := if col + 1 < grid_width then (col : ℤ) + 1 else 0
  let left_neighbor_col : ℤ := (col : ℤ) - 1
  let horizontal_neighbor_col : ℤ :=
    if is_black then
      if row % 2 = 1 then left_neighbor_col else right_neighbor_col
    else
      if row % 2 = 1 then right_neighbor_col else left_neighbor_col
  npGet source upper_neighbor_row col + npGet source lower_neighbor_row col +
    npGet source row col + npGet source row horizontal_neighbor_col

/-- Neighbour sum of the neutral-capable variant
(src/source/neutralspinsystem_fixed.py lines 98-125, identical in
neutralspinsystem_2.py): the same topology, with the periodic wrap written
out explicitly instead of negative indices. -/
def compute_neighbour_sum_neutral (is_black : Bool) (source : Grid) (row col : ℕ) : ℤ :=
  let grid_height := shape0 source
  let grid_width := shape1 source
  let lower_neighbor_row := if row + 1 < grid_height then row + 1 else 0
  let upper_neighbor_row := if 1 ≤ row then row - 1 else grid_height - 1
  let right_neighbor_col := if col + 1 < grid_width then col + 1 else 0
  let left_neighbor_col := if 1 ≤ col then col - 1 else grid_width - 1
  let horizontal_neighbor_col :=
    if is_black then
      if row % 2 = 1 then left_neighbor_col else right_neighbor_col
    else
      if row % 2 = 1 then right_neighbor_col else left_neighbor_col
  cell source upper_neighbor_row col + cell source lower_neighbor_row col +
    cell source row col + cell source row horizontal_neighbor_col

/-- Decrement modulo n, written the way the specification phrases it:
(i - 1) mod n computed over the integers. -/
def wrapDec (i n : ℕ) : ℕ := (((i : ℤ) - 1) % (n : ℤ)).toNat

/-- Increment modulo n: (i + 1) mod n computed over the integers. -/
def wrapInc (i n : ℕ) : ℕ := (((i : ℤ) + 1) % (n : ℤ)).toNat

/-- Neighbour sum written from the specification text of section 4.2 (claim C1),
for comparison with the code: the horizontal neighbour column is
(col - 1) mod (W/2) when (sublattice A and row even) or (sublattice B and
row odd), and (col + 1) mod (W/2) otherwise. Sublattice A is the black one. -/
def claim_neighbour_sum (is_black : Bool) (source : Grid) (row col : ℕ) : ℤ :=
  let grid_height := shape0 source
  let half_width := shape1 source
  let h := if (is_black = true ∧ row % 2 = 0) ∨ (is_black = false ∧ row % 2 = 1)
           then wrapDec col half_width else wrapInc col half_width
  cell source (wrapDec row grid_height) col + cell source (wrapInc row grid_height) col +
    cell source row col + cell source row h

/-! ## Probability table

Embeds SpinSystem.precompute_probabilities: the base variant builds a 2 x 5
table over (spin index, neighbour-sum index) -- src/source/spinsystem.py
lines 39-55, identical in system.py, krachspinsystem.py and
advantagespinsystem.py; the neutral-capable variant builds a 3 x 9 table --
src/source/neutralspinsystem_fixed.py lines 81-96, identical in
neutralspinsystem_2.py. -/

/-- Base probability table: row 0 encodes spin -1, row 1 spin +1; column c
encodes neighbour sum -4 + 2c; the entry is the heat-bath value
1 / (1 + exp(field)). -/
noncomputable def precompute_probabilities
    (reduced_neighbor_coupling market_coupling : ℝ) : List (List ℝ) :=
  (List.range 2).map (fun (row : ℕ) =>
    (List.range 5).map (fun (col : ℕ) =>
      let spin : ℝ := if row = 0 then -1 else 1
      let neighbour_sum : ℝ := -4 + 2 * (col : ℝ)
      let field := reduced_neighbor_coupling * neighbour_sum - market_coupling * spin
      1 / (1 + Real.exp field)))

/-- Neutral-variant probability table: spin index 0 encodes spin 0, index 1
spin +1, index 2 spin -1; column c encodes neighbour sum -4 + c. -/
noncomputable def precompute_probabilities_neutral
    (reduced_neighbor_coupling market_coupling : ℝ) : List (List ℝ) :=
  (List.range 3).map (fun (spin_idx : ℕ) =>
    (List.range 9).map (fun (col : ℕ) =>
      let spin_val : ℝ := if spin_idx = 2 then -1 else (spin_idx : ℝ)
      let neighbour_sum : ℝ := -4 + (col : ℝ)
      let field := reduced_neighbor_coupling * neighbour_sum - market_coupling * spin_val
      1 / (1 + Real.exp field)))

/-- Numpy style two-index table lookup probabilities[i][j]. -/
noncomputable def probLookup (t : List (List ℝ)) (i j : ℕ) : ℝ := (t.getD i []).getD j 0

/-! ## Privileged flip bias -/

/-- Probability actually applied to the flip decision in the privileged
variant (src/old_files/advantagespinsystem.py lines 169-176): a privileged
agent gets base_prob multiplied by privileged_flip_factor and capped at 1,
any other agent gets the table value unchanged. -/
noncomputable def applied_prob (is_privileged : Bool)
    (base_prob privileged_flip_factor : ℝ) : ℝ :=
  if is_privileged then min (base_prob * privileged_flip_factor) 1 else base_prob

/-! ## Spin initialisation

The base variant (spinsystem.py _init_spins, lines 25-37) walks black then
white in row-major order, drawing one uniform value per cell and setting the
cell to -1 when the draw is below init_up (the cell keeps the +1 it was
filled with otherwise). krachspinsystem.py lines 20-28 and
advantagespinsystem.py lines 50-62 run the same loop with the +1 branch
written out, and system.py lines 31-49 runs it over Trader objects; all
consume draws in the same order with the same outcome per draw. -/

/-- One colour array of the base-variant construction: cell (r, c) consumes
draw number k0 + r * cols + c. -/
noncomputable def init_color_arr (init_up : ℝ) (u : ℕ → ℝ) (k0 rows cols : ℕ) : Grid :=
  (List.range rows).map (fun (row : ℕ) =>
    (List.range cols).map (fun (col : ℕ) =>
      if u (k0 + row * cols + col) < init_up then -1 else 1))

/-- Base-variant construction of both sublattices: black consumes the first
H * (W/2) draws, white the next H * (W/2). -/
noncomputable def init_spins (init_up : ℝ) (u : ℕ → ℝ) (grid_height grid_width : ℕ) :
    Grid × Grid :=
  (init_color_arr init_up u 0 grid_height (grid_width / 2),
   init_color_arr init_up u (grid_height * (grid_width / 2)) grid_height (grid_width / 2))

/-- Sequential assignment loop of the neutral variants
(neutralspinsystem_fixed.py lines 70-75, identical in neutralspinsystem_2.py
lines 77-82): a cell already neutral (value 0) is skipped and consumes no
draw; every other cell consumes the next draw and becomes +1 when the draw
is below init_up, else -1. Note the sign is the opposite of the base
variant. -/
noncomputable def assign_spins (init_up : ℝ) (u : ℕ → ℝ) : List ℤ → ℕ → List ℤ
  | [], _ => []
  | v :: rest, k =>
    if v = 0 then v :: assign_spins init_up u rest k
    else (if u k < init_up then 1 else -1) :: assign_spins init_up u rest (k + 1)

/-- Flat full grid right after the neutral selection: np.ones zeroed at the
flat indices np.random.choice picked (passed in as sel). -/
def neutral_base_flat (grid_height grid_width : ℕ) (sel : List ℕ) : List ℤ :=
  (List.range (grid_height * grid_width)).map (fun (j : ℕ) => if j ∈ sel then 0 else 1)

/-- Construction of the neutral variants (neutralspinsystem_fixed.py
_init_spins, lines 33-78): zero the selected cells, draw the rest in
row-major order, then split the full grid into black (even physical columns)
and white (odd physical columns). -/
noncomputable def init_spins_neutral (init_up : ℝ) (u : ℕ → ℝ)
    (grid_height grid_width : ℕ) (sel : List ℕ) : Grid × Grid :=
  let flat := assign_spins init_up u (neutral_base_flat grid_height grid_width sel) 0
  let fullRow := fun (i : ℕ) =>
    (List.range grid_width).map (fun (j : ℕ) => flat.getD (i * grid_width + j) 0)
  let black := (List.range grid_height).map (fun (i : ℕ) =>
    (List.range (grid_width / 2)).map (fun (c : ℕ) => (fullRow i).getD (2 * c) 0))
  let white := (List.range grid_height).map (fun (i : ℕ) =>
    (List.range (grid_width / 2)).map (fun (c : ℕ) => (fullRow i).getD (2 * c + 1) 0))
  (black, white)

/-! ## Neutral selection bookkeeping and the sweep engine -/

/-- Python int() truncation toward zero, on an exact rational value. -/
def pyInt (q : ℚ) : ℤ := if 0 ≤ q then ⌊q⌋ else -⌊-q⌋

/-- Flat indices of a quadrant region of the full H x W grid, as the neutral
construction builds them with np.meshgrid plus np.ravel_multi_index
(neutralspinsystem_fixed.py lines 49-63): the top rows are 0..H/2-1, the
bottom rows H/2..H-1, the left columns 0..W/2-1, the right columns
W/2..W-1, and the flat index of (i, j) is i * W + j. -/
def region_indices (grid_height grid_width : ℕ) (region_neutral : String) : List ℕ :=
  let half_h := grid_height / 2
  let half_w := grid_width / 2
  let rows : List ℕ :=
    if region_neutral = "top_left" ∨ region_neutral = "top_right"
    then List.range half_h
    else (List.range (grid_height - half_h)).map (fun i => half_h + i)
  let cols : List ℕ :=
    if region_neutral = "top_left" ∨ region_neutral = "bottom_left"
    then List.range half_w
    else (List.range (grid_width - half_w)).map (fun j => half_w + j)
  (rows.map (fun i => cols.map (fun j => i * grid_width + j))).flatten

/-- Number of neutral cells the neutral construction creates
(neutralspinsystem_fixed.py lines 40 and 65): int(fraction * H * W) for
region random, min(int(fraction * region size), region size) for a
quadrant; np.random.choice then zeroes exactly that many distinct cells. -/
def construction_num_neutral (fraction_neutral : ℚ) (grid_height grid_width : ℕ)
    (region_neutral : String) : ℤ :=
  if region_neutral = "random" then
    pyInt (fraction_neutral * ((grid_height * grid_width : ℕ) : ℚ))
  else
    min (pyInt (fraction_neutral
        * (((region_indices grid_height grid_width region_neutral).length : ℕ) : ℚ)))
      (((region_indices grid_height grid_width region_neutral).length : ℕ) : ℤ)

/-- Neutral count the sweep uses in exclude mode (neutralspinsystem_fixed.py
lines 165-169): int(fraction * H * W) for region random, otherwise
int(fraction * (H * W) / 4) -- it divides by 4 instead of reusing the count
fixed at construction. -/
def number_of_neutrals_used (fraction_neutral : ℚ) (grid_height grid_width : ℕ)
    (region_neutral : String) : ℤ :=
  if region_neutral = "random" then
    pyInt (fraction_neutral * (grid_height : ℚ) * (grid_width : ℚ))
  else pyInt (fraction_neutral * ((grid_height : ℚ) * (grid_width : ℚ)) / 4)

/-- Result of a numpy division whose denominator may be zero: numpy emits
only a runtime warning there and produces inf or nan, so the embedding marks
that outcome with a dedicated value instead of an error. -/
inductive NpDiv where
  | val (q : ℚ)
  | nonfinite
deriving DecidableEq

/-- One heat-bath flip decision: the new state is +1 when the uniform draw
falls below the applied probability, else -1. -/
noncomputable def draw_flip (u p : ℝ) : ℤ := if u < p then 1 else -1

/-- Base-variant phase update (spinsystem.py _update_strategies, lines
88-107, identical in krachspinsystem.py lines 60-70): every cell of source
is rewritten in row-major order from one fresh draw and the probability
table entry for its current spin and its neighbour sum read from the other
sublattice. -/
noncomputable def strategy_step (is_black : Bool) (probabilities : List (List ℝ))
    (u : ℕ → ℝ) (checkerboard : Grid) (st : Grid × ℕ) (rc : ℕ × ℕ) : Grid × ℕ :=
  let neighbour_sum := compute_neighbour_sum is_black checkerboard rc.1 rc.2
  let spin_idx := ((cell st.1 rc.1 rc.2 + 1) / 2).toNat
  let sum_idx := ((neighbour_sum + 4) / 2).toNat
  (setCell st.1 rc.1 rc.2
      (draw_flip (u st.2) (probLookup probabilities spin_idx sum_idx)), st.2 + 1)

noncomputable def update_strategies (is_black : Bool) (probabilities : List (List ℝ))
    (u : ℕ → ℝ) (source checkerboard : Grid) (k : ℕ) : Grid × ℕ :=
  (positions (shape0 source) (shape1 source)).foldl
    (strategy_step is_black probabilities u checkerboard) (source, k)

/-- Neutral-variant phase update (neutralspinsystem_fixed.py
_update_strategies, lines 127-148): a cell whose current spin is 0 is
skipped and consumes no draw; every other cell is rewritten as in the base
variant, with spin index 2 for spin -1 and the 9-column sum index. -/
noncomputable def neutral_strategy_step (is_black : Bool) (probabilities : List (List ℝ))
    (u : ℕ → ℝ) (checkerboard : Grid) (st : Grid × ℕ) (rc : ℕ × ℕ) : Grid × ℕ :=
  let current_spin := cell st.1 rc.1 rc.2
  if current_spin = 0 then st
  else
    let neighbour_sum := compute_neighbour_sum_neutral is_black checkerboard rc.1 rc.2
    let spin_idx := if current_spin = -1 then 2 else current_spin.toNat
    let sum_idx := (neighbour_sum + 4).toNat
    (setCell st.1 rc.1 rc.2
        (draw_flip (u st.2) (probLookup probabilities spin_idx sum_idx)), st.2 + 1)

noncomputable def update_strategies_neutral (is_black : Bool)
    (probabilities : List (List ℝ)) (u : ℕ → ℝ) (source checkerboard : Grid)
    (k : ℕ) : Grid × ℕ :=
  (positions (shape0 source) (shape1 source)).foldl
    (neutral_strategy_step is_black probabilities u checkerboard) (source, k)

/-- What one sweep call leaves behind: both sublattices, the returned
magnetization sample, and the position of the draw stream. -/
structure SweepResult where
  black : Grid
  white : Grid
  magnetization : NpDiv
  draws : ℕ

/-- Base-variant sweep (spinsystem.py update, lines 109-132): compute the
global state sum and the market coupling, rebuild the table, update black
against white, update white against the new black, and return the
magnetization computed from the pre-sweep global sum. -/
noncomputable def update (reduced_neighbour_coupling reduced_alpha : ℝ) (u : ℕ → ℝ)
    (black white : Grid) (k : ℕ) : SweepResult :=
  let number_of_traders : ℕ := 2 * shape0 black * shape1 black
  let global_market : ℤ := gridSum black + gridSum white
  let market_coupling : ℝ :=
    reduced_alpha * |(global_market : ℝ)| / (number_of_traders : ℝ)
  let probabilities := precompute_probabilities reduced_neighbour_coupling market_coupling
  let b2 := update_strategies true probabilities u black white k
  let w2 := update_strategies false probabilities u white b2.1 b2.2
  { black := b2.1, white := w2.1,
    magnetization :=
      if number_of_traders = 0 then NpDiv.nonfinite
      else NpDiv.val ((global_market : ℚ) / (number_of_traders : ℚ)),
    draws := w2.2 }

/-- Neutral-variant sweep (neutralspinsystem_fixed.py update, lines
150-170): as the base sweep, but with the neutral table and phases, and in
exclude mode the returned magnetization divides by
number_of_traders - number_of_neutrals_used. -/
noncomputable def update_neutral (reduced_neighbour_coupling reduced_alpha : ℝ)
    (fraction_neutral : ℚ) (grid_height grid_width : ℕ) (region_neutral : String)
    (excluding_neutrals : Bool) (u : ℕ → ℝ) (black white : Grid) (k : ℕ) :
    SweepResult :=
  let number_of_traders : ℕ := 2 * shape0 black * shape1 black
  let global_market : ℤ := gridSum black + gridSum white
  let market_coupling : ℝ :=
    reduced_alpha * |(global_market : ℝ)| / (number_of_traders : ℝ)
  let probabilities :=
    precompute_probabilities_neutral reduced_neighbour_coupling market_coupling
  let b2 := update_strategies_neutral true probabilities u black white k
  let w2 := update_strategies_neutral false probabilities u white b2.1 b2.2
  { black := b2.1, white := w2.1,
    magnetization :=
      if excluding_neutrals = false then
        (if number_of_traders = 0 then NpDiv.nonfinite
         else NpDiv.val ((global_market : ℚ) / (number_of_traders : ℚ)))
      else
        (let number_of_neutrals :=
          number_of_neutrals_used fraction_neutral grid_height grid_width region_neutral
        if (number_of_traders : ℤ) - number_of_neutrals = 0 then NpDiv.nonfinite
        else NpDiv.val ((global_market : ℚ)
            / (((number_of_traders : ℤ) - number_of_neutrals : ℤ) : ℚ))),
    draws := w2.2 }

/-- Iterated sweep calls of the neutral engine, threading both sublattices
and the draw counter. -/
noncomputable def sweeps_neutral (reduced_neighbour_coupling reduced_alpha : ℝ)
    (fraction_neutral : ℚ) (grid_height grid_width : ℕ) (region_neutral : String)
    (excluding_neutrals : Bool) (u : ℕ → ℝ) :
    ℕ → Grid × Grid × ℕ → Grid × Grid × ℕ
  | 0, st => st
  | n + 1, st =>
    let res := update_neutral reduced_neighbour_coupling reduced_alpha fraction_neutral
      grid_height grid_width region_neutral excluding_neutrals u st.1 st.2.1 st.2.2
    sweeps_neutral reduced_neighbour_coupling reduced_alpha fraction_neutral
      grid_height grid_width region_neutral excluding_neutrals u n
      (res.black, res.white, res.draws)


/-! ## Shock injection (claim C5)

Embeds induce_local_crash of src/old_files/krachspinsystem.py (lines
87-160). The quadrant branches assign -1 to a half-rows by half-cols slice
of each sublattice array (halves of the sublattice shape, floor division);
numpy arrays are rectangular, so the slice assignment is embedded as a
shape-indexed rebuild of the array. The random branch forces the
np.random.choice selection (passed in as flat index lists) to -1. An
unknown region raises ValueError, embedded as none. reconstruct_grid embeds
utils.py lines 17-36 (black fills the even physical columns, white the odd
ones). -/

def in_crash_quadrant (region : String) (half_rows half_cols r c : ℕ) : Bool :=
  if region = "top_left" then decide (r < half_rows ∧ c < half_cols)
  else if region = "top_right" then decide (r < half_rows ∧ half_cols ≤ c)
  else if region = "bottom_left" then decide (half_rows ≤ r ∧ c < half_cols)
  else if region = "bottom_right" then decide (half_rows ≤ r ∧ half_cols ≤ c)
  else false

def crash_region_set (region : String) (g : Grid) : Grid :=
  (List.range (shape0 g)).map (fun (r : ℕ) =>
    (List.range (shape1 g)).map (fun (c : ℕ) =>
      if in_crash_quadrant region (shape0 g / 2) (shape1 g / 2) r c then -1
      else cell g r c))

def flat_set_neg (g : Grid) (sel : List ℕ) : Grid :=
  (List.range (shape0 g)).map (fun (r : ℕ) =>
    (List.range (shape1 g)).map (fun (c : ℕ) =>
      if r * shape1 g + c ∈ sel then -1 else cell g r c))

def induce_local_crash (fraction : ℚ) (region : String) (black white : Grid)
    (sel_b sel_w : List ℕ) : Option (Grid × Grid) :=
  if region = "random" then
    some (flat_set_neg black sel_b, flat_set_neg white sel_w)
  else if region = "top_left" ∨ region = "top_right" ∨ region = "bottom_left"
      ∨ region = "bottom_right" then
    some (crash_region_set region black, crash_region_set region white)
  else none

def reconstruct_grid (black white : Grid) : Grid :=
  (List.range (shape0 black)).map (fun (r : ℕ) =>
    (List.range (shape1 black * 2)).map (fun (j : ℕ) =>
      if j % 2 = 0 then cell black r (j / 2) else cell white r (j / 2)))

/-! ## Trader implementation (claim C9) -/

/-- Trader object of src/old_files/trader.py: grid coordinates, spin and the
sublattice flag. -/
structure Trader where
  row : ℕ
  col : ℕ
  spin : ℤ
  is_black : Bool
deriving DecidableEq

instance : Inhabited Trader := ⟨⟨0, 0, 1, true⟩⟩

/-- Trader construction of src/source/system.py _init_traders (lines 31-49):
one trader per (row, col) in row-major order, each consuming one draw, spin
-1 when the draw is below init_up. -/
noncomputable def init_traders (init_up : ℝ) (u : ℕ → ℝ) (k0 grid_height color_width : ℕ)
    (is_black : Bool) : List Trader :=
  (positions grid_height color_width).map (fun rc =>
    ⟨rc.1, rc.2, if u (k0 + rc.1 * color_width + rc.2) < init_up then -1 else 1, is_black⟩)

/-- Spin of the trader at a flat Python list index (negative indices wrap
around the whole flat list, exactly as Python list indexing does). -/
def trader_spin_at (all_traders : List Trader) (i : ℤ) : ℤ :=
  (all_traders.getD (pyIdx all_traders.length i) default).spin

/-- Neighbour sum of system.py _compute_neighbour_sum (lines 66-103): the
same four neighbours as the array variant, but read through the flat index
idx(r, c) = r * color_width + c into the one-dimensional trader list. Note
that idx(row, -1) = row * color_width - 1 is a valid non-negative index for
row over 0, so the left wrap lands on the previous row there instead of
wrapping within the row. -/
def compute_neighbour_sum_traders (grid_height : ℕ) (t : Trader)
    (all_traders : List Trader) (is_black : Bool) : ℤ :=
  let grid_width := all_traders.length / grid_height
  let row := t.row
  let col := t.col
  let lower_neighbor_row : ℤ := if row + 1 < grid_height then (row : ℤ) + 1 else 0
  let upper_neighbor_row : ℤ := (row : ℤ) - 1
  let right_neighbor_col : ℤ := if col + 1 < grid_width then (col : ℤ) + 1 else 0
  let left_neighbor_col : ℤ := (col : ℤ) - 1
  let horizontal_neighbor_col : ℤ :=
    if is_black then
      if row % 2 = 1 then left_neighbor_col else right_neighbor_col
    else
      if row % 2 = 1 then right_neighbor_col else left_neighbor_col
  trader_spin_at all_traders (upper_neighbor_row * grid_width + col)
    + trader_spin_at all_traders (lower_neighbor_row * grid_width + col)
    + trader_spin_at all_traders ((row : ℤ) * grid_width + col)
    + trader_spin_at all_traders ((row : ℤ) * grid_width + horizontal_neighbor_col)

/-- Loop body of system.py _update_subgrid (lines 105-124): one trader is
rewritten from one draw and the base probability table. -/
noncomputable def trader_step (grid_height : ℕ) (is_black : Bool)
    (probabilities : List (List ℝ)) (u : ℕ → ℝ) (other_subgrid : List Trader)
    (st : List Trader × ℕ) (t : Trader) : List Trader × ℕ :=
  let neighbour_sum := compute_neighbour_sum_traders grid_height t other_subgrid is_black
  let spin_idx : ℕ := if t.spin = 1 then 1 else 0
  let sum_idx := ((neighbour_sum + 4) / 2).toNat
  (st.1 ++ [{ t with
      spin := draw_flip (u st.2) (probLookup probabilities spin_idx sum_idx) }], st.2 + 1)

/-- Phase update of the trader implementation: every trader of subgrid in
list order, neighbours read from the fixed other list. -/
noncomputable def update_subgrid_traders (grid_height : ℕ) (is_black : Bool)
    (probabilities : List (List ℝ)) (u : ℕ → ℝ) (subgrid other_subgrid : List Trader)
    (k : ℕ) : List Trader × ℕ :=
  subgrid.foldl (trader_step grid_height is_black probabilities u other_subgrid) ([], k)

/-- What one trader-implementation sweep leaves behind. -/
structure TraderSweepResult where
  traders_black : List Trader
  traders_white : List Trader
  magnetization : NpDiv
  draws : ℕ

/-- Sweep of system.py update (lines 126-147): same structure as the base
array sweep, black then white, magnetization from the pre-sweep sum. -/
noncomputable def update_traders (reduced_neighbour_coupling reduced_alpha : ℝ)
    (grid_height : ℕ) (u : ℕ → ℝ) (traders_black traders_white : List Trader)
    (k : ℕ) : TraderSweepResult :=
  let number_of_traders : ℕ := traders_black.length + traders_white.length
  let global_market : ℤ :=
    (traders_black.map (fun t => t.spin)).sum + (traders_white.map (fun t => t.spin)).sum
  let market_coupling : ℝ :=
    reduced_alpha * |(global_market : ℝ)| / (number_of_traders : ℝ)
  let probabilities := precompute_probabilities reduced_neighbour_coupling market_coupling
  let b2 := update_subgrid_traders grid_height true probabilities u traders_black
    traders_white k
  let w2 := update_subgrid_traders grid_height false probabilities u traders_white
    b2.1 b2.2
  { traders_black := b2.1, traders_white := w2.1,
    magnetization :=
      if number_of_traders = 0 then NpDiv.nonfinite
      else NpDiv.val ((global_market : ℚ) / (number_of_traders : ℚ)),
    draws := w2.2 }

/-! ## Lemmas and claim theorems -/

lemma wrapDec_eq (n i : ℕ) (h0 : 0 < n) (h : i < n) :
    wrapDec i n = if i = 0 then n - 1 else i - 1 := by
  unfold wrapDec
  rcases Nat.eq_zero_or_pos i with hi | hi
  · subst hi
    have h1 : ((0 : ℕ) : ℤ) - 1 = ((n : ℤ) - 1) + (n : ℤ) * (-1) := by push_cast; ring
    rw [h1, Int.add_mul_emod_self_left, Int.emod_eq_of_lt (by omega) (by omega)]
    rw [if_pos rfl]
    omega
  · rw [Int.emod_eq_of_lt (by omega) (by omega)]
    rw [if_neg (by omega)]
    omega

lemma wrapInc_eq (n i : ℕ) (h : i < n) :
    wrapInc i n = if i + 1 < n then i + 1 else 0 := by
  unfold wrapInc
  by_cases hlt : i + 1 < n
  · rw [Int.emod_eq_of_lt (by omega) (by omega), if_pos hlt]
    omega
  · rw [if_neg hlt]
    have h2 : ((i : ℤ) + 1) % (n : ℤ) = 0 := by
      rw [show ((i : ℤ) + 1) = (n : ℤ) from by omega]
      simp
    rw [h2]
    rfl

lemma pyIdx_ofNat (n i : ℕ) : pyIdx n (i : ℤ) = i := by
  unfold pyIdx
  rw [if_neg (by omega : ¬((i : ℤ) < 0))]
  omega

lemma pyIdx_dec (n i : ℕ) (h0 : 0 < n) (h : i < n) :
    pyIdx n ((i : ℤ) - 1) = wrapDec i n := by
  rw [wrapDec_eq n i h0 h]
  unfold pyIdx
  split_ifs <;> omega

lemma pyIdx_ite_inc (n i : ℕ) (h : i < n) :
    pyIdx n (if i + 1 < n then ((i : ℤ) + 1) else 0) = wrapInc i n := by
  rw [wrapInc_eq n i h]
  unfold pyIdx
  split_ifs <;> omega

lemma nat_ite_dec (n i : ℕ) (h0 : 0 < n) (h : i < n) :
    (if 1 ≤ i then i - 1 else n - 1) = wrapDec i n := by
  rw [wrapDec_eq n i h0 h]
  split_ifs <;> omega

lemma nat_ite_inc (n i : ℕ) (h : i < n) :
    (if i + 1 < n then i + 1 else 0) = wrapInc i n := by
  rw [wrapInc_eq n i h]

/-- Claim C1, corrected. The neighbour sum of both the base variant and the
neutral variant equals up + down + self-aligned + horizontal with toroidal
wrap, but with the horizontal parity rule swapped relative to the claim:
the horizontal neighbour column is (col - 1) mod (W/2) when (A and row odd)
or (B and row even); it is (col + 1) mod (W/2) when (A and row even) or
(B and row odd). -/
theorem neighbour_sum_amended (is_black : Bool) (source : Grid) (row col : ℕ)
    (hrow : row < shape0 source) (hcol : col < shape1 source) :
    compute_neighbour_sum is_black source row col =
      cell source (wrapDec row (shape0 source)) col
      + cell source (wrapInc row (shape0 source)) col
      + cell source row col
      + cell source row
          (if (is_black = true ∧ row % 2 = 1) ∨ (is_black = false ∧ row % 2 = 0)
           then wrapDec col (shape1 source) else wrapInc col (shape1 source))
    ∧ compute_neighbour_sum_neutral is_black source row col =
      cell source (wrapDec row (shape0 source)) col
      + cell source (wrapInc row (shape0 source)) col
      + cell source row col
      + cell source row
          (if (is_black = true ∧ row % 2 = 1) ∨ (is_black = false ∧ row % 2 = 0)
           then wrapDec col (shape1 source) else wrapInc col (shape1 source)) := by
  have h0 : 0 < shape0 source := by omega
  have h1 : 0 < shape1 source := by omega
  constructor
  · simp only [compute_neighbour_sum, npGet]
    rw [pyIdx_dec _ _ h0 hrow, pyIdx_ite_inc _ _ hrow]
    simp only [pyIdx_ofNat]
    cases is_black
    · by_cases hpar : row % 2 = 1
      · rw [if_neg (by simp), if_pos hpar, pyIdx_ite_inc _ _ hcol,
          if_neg (by simp; omega)]
      · rw [if_neg (by simp), if_neg hpar, pyIdx_dec _ _ h1 hcol,
          if_pos (by simp; omega)]
    · by_cases hpar : row % 2 = 1
      · rw [if_pos rfl, if_pos hpar, pyIdx_dec _ _ h1 hcol,
          if_pos (Or.inl ⟨rfl, hpar⟩)]
      · rw [if_pos rfl, if_neg hpar, pyIdx_ite_inc _ _ hcol,
          if_neg (by simp; omega)]
  · simp only [compute_neighbour_sum_neutral]
    rw [nat_ite_dec _ _ h0 hrow, nat_ite_inc _ _ hrow]
    cases is_black
    · by_cases hpar : row % 2 = 1
      · rw [if_neg (by simp), if_pos hpar, nat_ite_inc _ _ hcol,
          if_neg (by simp; omega)]
      · rw [if_neg (by simp), if_neg hpar, nat_ite_dec _ _ h1 hcol,
          if_pos (by simp; omega)]
    · by_cases hpar : row % 2 = 1
      · rw [if_pos rfl, if_pos hpar, nat_ite_dec _ _ h1 hcol,
          if_pos (Or.inl ⟨rfl, hpar⟩)]
      · rw [if_pos rfl, if_neg hpar, nat_ite_inc _ _ hcol,
          if_neg (by simp; omega)]

/-- Witness for the corrected claim C1 at a concrete 2 x 3 sublattice. -/
theorem neighbour_sum_amended_witness :
    (1 : ℕ) < shape0 [[1, 1, -1], [1, -1, 1]] ∧ (0 : ℕ) < shape1 [[1, 1, -1], [1, -1, 1]] ∧
    (compute_neighbour_sum true [[1, 1, -1], [1, -1, 1]] 1 0 =
      cell [[1, 1, -1], [1, -1, 1]] (wrapDec 1 2) 0
      + cell [[1, 1, -1], [1, -1, 1]] (wrapInc 1 2) 0
      + cell [[1, 1, -1], [1, -1, 1]] 1 0
      + cell [[1, 1, -1], [1, -1, 1]] 1
          (if (true = true ∧ 1 % 2 = 1) ∨ (true = false ∧ 1 % 2 = 0)
           then wrapDec 0 3 else wrapInc 0 3)
    ∧ compute_neighbour_sum_neutral true [[1, 1, -1], [1, -1, 1]] 1 0 =
      cell [[1, 1, -1], [1, -1, 1]] (wrapDec 1 2) 0
      + cell [[1, 1, -1], [1, -1, 1]] (wrapInc 1 2) 0
      + cell [[1, 1, -1], [1, -1, 1]] 1 0
      + cell [[1, 1, -1], [1, -1, 1]] 1
          (if (true = true ∧ 1 % 2 = 1) ∨ (true = false ∧ 1 % 2 = 0)
           then wrapDec 0 3 else wrapInc 0 3)) :=
  ⟨by decide, by decide, neighbour_sum_amended true [[1, 1, -1], [1, -1, 1]] 1 0
    (by decide) (by decide)⟩

/-- Counterexample to claim C1 as stated: on a 1 x 3 sublattice, updating the
black cell at (0, 0) (row even), the code reads the right horizontal
neighbour (col + 1 = 1) and returns 4, while the claimed rule (col - 1 mod 3
for sublattice A with even row) would read column 2 and give 2. Both the base
and the neutral variant disagree with the claim. -/
theorem neighbour_sum_claim_counterexample :
    compute_neighbour_sum true [[1, 1, -1]] 0 0 = 4 ∧
    compute_neighbour_sum_neutral true [[1, 1, -1]] 0 0 = 4 ∧
    claim_neighbour_sum true [[1, 1, -1]] 0 0 = 2 := by
  decide

lemma getD_map_range {α : Type} (n : ℕ) (f : ℕ → α) (d : α) (i : ℕ) (h : i < n) :
    ((List.range n).map f).getD i d = f i := by
  rw [List.getD_eq_getElem?_getD, List.getElem?_map, List.getElem?_range h]
  rfl

lemma heatbath_mem_unit (x : ℝ) : 0 ≤ 1 / (1 + Real.exp x) ∧ 1 / (1 + Real.exp x) ≤ 1 := by
  have hp : (0 : ℝ) < 1 + Real.exp x := by positivity
  constructor
  · positivity
  · rw [div_le_one hp]
    linarith [(Real.exp_pos x).le]

/-- Claim C7, confirmed: every entry of the base 2 x 5 table and of the
neutral 3 x 9 table equals 1 / (1 + exp(neighbor_coupling * neighbour_sum
- market_coupling * current_state)) for the state and sum its index encodes,
and every entry lies in [0, 1]. -/
theorem probability_table_entries (reduced_neighbor_coupling market_coupling : ℝ) :
    (∀ row col : ℕ, row < 2 → col < 5 →
      probLookup (precompute_probabilities reduced_neighbor_coupling market_coupling) row col
        = 1 / (1 + Real.exp (reduced_neighbor_coupling * (-4 + 2 * (col : ℝ))
            - market_coupling * (if row = 0 then -1 else 1)))
      ∧ 0 ≤ probLookup (precompute_probabilities reduced_neighbor_coupling market_coupling) row col
      ∧ probLookup (precompute_probabilities reduced_neighbor_coupling market_coupling) row col ≤ 1)
    ∧ (∀ spin_idx col : ℕ, spin_idx < 3 → col < 9 →
      probLookup (precompute_probabilities_neutral reduced_neighbor_coupling market_coupling)
          spin_idx col
        = 1 / (1 + Real.exp (reduced_neighbor_coupling * (-4 + (col : ℝ))
            - market_coupling * (if spin_idx = 2 then -1 else (spin_idx : ℝ))))
      ∧ 0 ≤ probLookup (precompute_probabilities_neutral reduced_neighbor_coupling market_coupling)
          spin_idx col
      ∧ probLookup (precompute_probabilities_neutral reduced_neighbor_coupling market_coupling)
          spin_idx col ≤ 1) := by
  constructor
  · intro row col hrow hcol
    have he : probLookup (precompute_probabilities reduced_neighbor_coupling market_coupling)
        row col
        = 1 / (1 + Real.exp (reduced_neighbor_coupling * (-4 + 2 * (col : ℝ))
            - market_coupling * (if row = 0 then -1 else 1))) := by
      simp only [probLookup, precompute_probabilities,
        getD_map_range _ _ _ _ hrow, getD_map_range _ _ _ _ hcol]
    exact ⟨he, he ▸ (heatbath_mem_unit _).1, he ▸ (heatbath_mem_unit _).2⟩
  · intro spin_idx col hrow hcol
    have he : probLookup
        (precompute_probabilities_neutral reduced_neighbor_coupling market_coupling) spin_idx col
        = 1 / (1 + Real.exp (reduced_neighbor_coupling * (-4 + (col : ℝ))
            - market_coupling * (if spin_idx = 2 then -1 else (spin_idx : ℝ)))) := by
      simp only [probLookup, precompute_probabilities_neutral,
        getD_map_range _ _ _ _ hrow, getD_map_range _ _ _ _ hcol]
    exact ⟨he, he ▸ (heatbath_mem_unit _).1, he ▸ (heatbath_mem_unit _).2⟩

/-- Witness for claim C7 at the (state -1, neighbour sum 0) entry of the base
table and the (state 0, neighbour sum -4) entry of the neutral table, with
both couplings 1. -/
theorem probability_table_entries_witness :
    ((0 : ℕ) < 2 ∧ (2 : ℕ) < 5 ∧
      (probLookup (precompute_probabilities 1 1) 0 2
        = 1 / (1 + Real.exp ((1 : ℝ) * (-4 + 2 * ((2 : ℕ) : ℝ))
            - 1 * (if (0 : ℕ) = 0 then -1 else 1)))
      ∧ 0 ≤ probLookup (precompute_probabilities 1 1) 0 2
      ∧ probLookup (precompute_probabilities 1 1) 0 2 ≤ 1))
    ∧ ((0 : ℕ) < 3 ∧ (0 : ℕ) < 9 ∧
      (probLookup (precompute_probabilities_neutral 1 1) 0 0
        = 1 / (1 + Real.exp ((1 : ℝ) * (-4 + ((0 : ℕ) : ℝ))
            - 1 * (if (0 : ℕ) = 2 then -1 else ((0 : ℕ) : ℝ))))
      ∧ 0 ≤ probLookup (precompute_probabilities_neutral 1 1) 0 0
      ∧ probLookup (precompute_probabilities_neutral 1 1) 0 0 ≤ 1)) :=
  ⟨⟨by norm_num, by norm_num,
      (probability_table_entries 1 1).1 0 2 (by norm_num) (by norm_num)⟩,
    ⟨by norm_num, by norm_num,
      (probability_table_entries 1 1).2 0 0 (by norm_num) (by norm_num)⟩⟩

/-- Claim C8, confirmed: for a privileged cell the applied probability is
min(base_prob * factor, 1), hence never exceeds 1; a non-privileged cell
uses the table probability unchanged. -/
theorem privileged_prob_clipped (base_prob privileged_flip_factor : ℝ)
    (hf : 1 ≤ privileged_flip_factor) :
    applied_prob true base_prob privileged_flip_factor
        = min (base_prob * privileged_flip_factor) 1
      ∧ applied_prob true base_prob privileged_flip_factor ≤ 1
      ∧ applied_prob false base_prob privileged_flip_factor = base_prob := by
  refine ⟨rfl, ?_, rfl⟩
  show min (base_prob * privileged_flip_factor) 1 ≤ 1
  exact min_le_right _ _

/-- Witness for claim C8 at base probability 7/10 and factor 2. -/
theorem privileged_prob_clipped_witness :
    (1 : ℝ) ≤ 2 ∧
    (applied_prob true (7/10) 2 = min ((7/10) * 2) 1
      ∧ applied_prob true (7/10) 2 ≤ 1
      ∧ applied_prob false (7/10) 2 = 7/10) :=
  ⟨by norm_num, privileged_prob_clipped (7/10) 2 (by norm_num)⟩

/-- Claim C2, corrected. In the base, krach, advantage and trader variants a
cell is set to -1 exactly when its draw is below init_up; in the neutral
variants the sign is the opposite: a non-neutral cell is set to +1 exactly
when its draw is below init_up (matching their own docstring, which calls
init_up the initial +1 fraction). First conjunct: the base-variant law per
cell. Second conjunct: the neutral-variant law per surviving cell, whose
draw index skips the neutral cells before it. -/
theorem init_spin_distribution_amended :
    (∀ (init_up : ℝ) (u : ℕ → ℝ) (k0 rows cols r c : ℕ), r < rows → c < cols →
      cell (init_color_arr init_up u k0 rows cols) r c
        = if u (k0 + r * cols + c) < init_up then -1 else 1)
    ∧ (∀ (init_up : ℝ) (u : ℕ → ℝ) (vals : List ℤ) (k j : ℕ),
        j < vals.length → vals.getD j 0 ≠ 0 →
      (assign_spins init_up u vals k).getD j 0
        = if u (k + ((vals.take j).filter (fun v => v ≠ 0)).length) < init_up
          then 1 else -1) := by
  constructor
  · intro init_up u k0 rows cols r c hr hc
    unfold cell init_color_arr
    rw [getD_map_range rows _ [] r hr, getD_map_range cols _ 0 c hc]
  · intro init_up u vals
    induction vals with
    | nil => intro k j hj hnz; simp at hj
    | cons v rest ih =>
      intro k j hj hnz
      by_cases hv : v = 0
      · simp only [assign_spins, if_pos hv]
        cases j with
        | zero =>
          rw [List.getD_cons_zero] at hnz
          exact absurd hv hnz
        | succ j =>
          have h2 := ih k j (by simpa using hj) (by simpa using hnz)
          rw [List.getD_cons_succ, h2]
          have h3 : ((v :: rest).take (j + 1)).filter (fun x => decide (x ≠ 0))
              = (rest.take j).filter (fun x => decide (x ≠ 0)) := by
            simp [List.take_succ_cons, List.filter_cons, hv]
          rw [h3]
      · simp only [assign_spins, if_neg hv]
        cases j with
        | zero =>
          rw [List.getD_cons_zero]
          simp
        | succ j =>
          have h2 := ih (k + 1) j (by simpa using hj) (by simpa using hnz)
          rw [List.getD_cons_succ, h2]
          have h3 : (((v :: rest).take (j + 1)).filter (fun x => decide (x ≠ 0))).length
              = ((rest.take j).filter (fun x => decide (x ≠ 0))).length + 1 := by
            simp [List.take_succ_cons, List.filter_cons, hv]
          rw [h3, show k + 1 + ((rest.take j).filter (fun x => decide (x ≠ 0))).length
              = k + (((rest.take j).filter (fun x => decide (x ≠ 0))).length + 1) from by omega]

/-- Witness for the corrected claim C2: a base-variant cell whose draw (1)
is not below init_up (1/2) and a neutral-variant cell (initial value 5 is
nonzero, so it is drawn) whose draw (0) is below init_up. -/
theorem init_spin_distribution_witness :
    ((0 : ℕ) < 1 ∧ (0 : ℕ) < 1
      ∧ cell (init_color_arr (1/2) (fun _ => 1) 0 1 1) 0 0 = 1)
    ∧ ((0 : ℕ) < ([5] : List ℤ).length ∧ ([5] : List ℤ).getD 0 0 ≠ 0
      ∧ (assign_spins (1/2) (fun _ => 0) [5] 0).getD 0 0 = 1) := by
  refine ⟨⟨by norm_num, by norm_num, ?_⟩, ⟨by decide, by decide, ?_⟩⟩
  · have h := init_spin_distribution_amended.1 (1/2) (fun _ => 1) 0 1 1 0 0
      (by norm_num) (by norm_num)
    norm_num at h
    exact h
  · have h := init_spin_distribution_amended.2 (1/2) (fun _ => 0) [5] 0 0
      (by decide) (by decide)
    norm_num at h
    exact h

/-- Counterexample to claim C2 as stated: in the neutral variant on a 2 x 2
grid with no neutral cells, init_up = 3/10 and every draw 2/10 (below
init_up), the first black cell comes out +1, not the -1 the claim demands
for a draw below init_up. -/
theorem init_up_sign_counterexample :
    ((2 : ℝ)/10 < 3/10)
    ∧ cell (init_spins_neutral (3/10) (fun _ => 2/10) 2 2 []).1 0 0 = 1 := by
  constructor
  · norm_num
  · have hbase : neutral_base_flat 2 2 [] = [1, 1, 1, 1] := by decide
    have hflat : assign_spins (3/10) (fun _ => (2 : ℝ)/10) [1, 1, 1, 1] 0
        = [1, 1, 1, 1] := by
      simp only [assign_spins]
      norm_num
    simp only [init_spins_neutral, hbase, hflat]
    decide

lemma count_zero_assign (init_up : ℝ) (u : ℕ → ℝ) :
    ∀ (vals : List ℤ) (k : ℕ), (assign_spins init_up u vals k).count 0 = vals.count 0 := by
  intro vals
  induction vals with
  | nil => intro k; rfl
  | cons v rest ih =>
    intro k
    by_cases hv : v = 0
    · simp only [assign_spins, if_pos hv, List.count_cons, ih]
    · simp only [assign_spins, if_neg hv, List.count_cons, ih]
      have h1 : ((if u k < init_up then (1 : ℤ) else -1) = 0) = False := by
        split <;> norm_num
      have h2 : ((v : ℤ) = 0) = False := by simp [hv]
      simp [h1, h2]

lemma neutral_base_flat_congr (grid_height grid_width : ℕ) (sel sel2 : List ℕ)
    (h : ∀ j, j ∈ sel ↔ j ∈ sel2) :
    neutral_base_flat grid_height grid_width sel
      = neutral_base_flat grid_height grid_width sel2 := by
  unfold neutral_base_flat
  refine List.map_congr_left ?_
  intro j _
  by_cases hm : j ∈ sel
  · rw [if_pos hm, if_pos ((h j).mp hm)]
  · rw [if_neg hm, if_neg (fun hc => hm ((h j).mpr hc))]

/-- Claim C3, the code bug evaluated at its failing input: grid 3 x 4,
fraction_neutral 1, region top_left. The construction quadrant holds the 2
cells {0, 1} (rows 0..0, columns 0..1), so construction creates exactly 2
neutral cells -- for any admissible random selection and any draws -- while
the sweep in exclude mode uses int(1 * 12 / 4) = 3 and divides by
12 - 3 = 9 instead of 12 - 2 = 10. -/
theorem exclude_neutrals_count_bug (init_up : ℝ) (u : ℕ → ℝ) (sel : List ℕ)
    (hmem : ∀ j, j ∈ sel ↔ j ∈ [0, 1]) :
    region_indices 3 4 "top_left" = [0, 1]
    ∧ construction_num_neutral 1 3 4 "top_left" = 2
    ∧ (assign_spins init_up u (neutral_base_flat 3 4 sel) 0).count 0 = 2
    ∧ number_of_neutrals_used 1 3 4 "top_left" = 3 := by
  have hreg : region_indices 3 4 "top_left" = [0, 1] := by decide
  refine ⟨hreg, ?_, ?_, ?_⟩
  · unfold construction_num_neutral
    rw [if_neg (by decide), hreg]
    norm_num [pyInt]
  · rw [neutral_base_flat_congr 3 4 sel [0, 1] hmem, count_zero_assign]
    decide
  · unfold number_of_neutrals_used
    rw [if_neg (by decide)]
    norm_num [pyInt]

/-- Witness for the claim C3 theorem at the concrete selection [0, 1]. -/
theorem exclude_neutrals_count_bug_witness :
    (∀ j, j ∈ ([0, 1] : List ℕ) ↔ j ∈ ([0, 1] : List ℕ))
    ∧ (region_indices 3 4 "top_left" = [0, 1]
      ∧ construction_num_neutral 1 3 4 "top_left" = 2
      ∧ (assign_spins 0 (fun _ => 0) (neutral_base_flat 3 4 [0, 1]) 0).count 0 = 2
      ∧ number_of_neutrals_used 1 3 4 "top_left" = 3) :=
  ⟨fun _ => Iff.rfl, exclude_neutrals_count_bug 0 (fun _ => 0) [0, 1] (fun _ => Iff.rfl)⟩

/-- Claim C4, the missing fail-fast evaluated at its failing input: a 2 x 2
grid with fraction_neutral 1 and region random makes the exclude-mode
denominator 4 - int(1 * 2 * 2) = 0, and the sweep returns the numpy
nonfinite division result (inf or nan after a warning) instead of raising:
the embedding reaches the zero denominator for every selection, every draw
stream and every coupling. -/
theorem exclude_neutrals_no_fail_fast (init_up : ℝ) (u : ℕ → ℝ) (sel : List ℕ)
    (reduced_neighbour_coupling reduced_alpha : ℝ) (k : ℕ) :
    (update_neutral reduced_neighbour_coupling reduced_alpha 1 2 2 "random" true u
        (init_spins_neutral init_up u 2 2 sel).1
        (init_spins_neutral init_up u 2 2 sel).2 k).magnetization
      = NpDiv.nonfinite := by
  have h0 : shape0 (init_spins_neutral init_up u 2 2 sel).1 = 2 := by
    simp [init_spins_neutral, shape0]
  have h1 : shape1 (init_spins_neutral init_up u 2 2 sel).1 = 1 := by
    simp [init_spins_neutral, shape1, List.range_succ]
  simp only [update_neutral, h0, h1]
  norm_num [number_of_neutrals_used, pyInt]

/-! ## Neutral invariants (claim C6) -/

lemma getD_set_ne {α : Type} (l : List α) (i j : ℕ) (a d : α) (h : i ≠ j) :
    (l.set i a).getD j d = l.getD j d := by
  rw [List.getD_eq_getElem?_getD, List.getElem?_set_ne h, ← List.getD_eq_getElem?_getD]

lemma getD_set_self {α : Type} (l : List α) (i : ℕ) (a d : α) (h : i < l.length) :
    (l.set i a).getD i d = a := by
  rw [List.getD_eq_getElem?_getD, List.getElem?_set_self (by simpa using h)]
  rfl

lemma cell_setCell_of_ne (g : Grid) (r1 c1 : ℕ) (v : ℤ) (r c : ℕ)
    (h : ¬(r1 = r ∧ c1 = c)) : cell (setCell g r1 c1 v) r c = cell g r c := by
  unfold cell setCell
  by_cases hr : r1 = r
  · subst hr
    have hc : c1 ≠ c := fun hc => h ⟨rfl, hc⟩
    by_cases hlen : r1 < g.length
    · rw [getD_set_self g r1 _ [] hlen]
      rw [getD_set_ne _ _ _ _ _ hc]
    · rw [List.set_eq_of_length_le (by omega)]
  · rw [getD_set_ne _ _ _ _ _ hr]

lemma cell_setCell_self_or (g : Grid) (r c : ℕ) (v : ℤ) :
    cell (setCell g r c v) r c = v ∨ cell (setCell g r c v) r c = cell g r c := by
  unfold cell setCell
  by_cases hlen : r < g.length
  · rw [getD_set_self g r _ [] hlen]
    by_cases hclen : c < (g.getD r []).length
    · exact Or.inl (getD_set_self _ c v 0 hclen)
    · right
      rw [List.set_eq_of_length_le (by omega)]
  · rw [List.set_eq_of_length_le (by omega)]
    right
    rfl

lemma draw_flip_pm (u p : ℝ) : draw_flip u p = 1 ∨ draw_flip u p = -1 := by
  unfold draw_flip
  split
  · exact Or.inl rfl
  · exact Or.inr rfl

lemma neutral_fold_zero (is_black : Bool) (probabilities : List (List ℝ))
    (u : ℕ → ℝ) (checkerboard : Grid) :
    ∀ (L : List (ℕ × ℕ)) (g : Grid) (k r c : ℕ), cell g r c = 0 →
      cell ((L.foldl (neutral_strategy_step is_black probabilities u checkerboard)
        (g, k)).1) r c = 0 := by
  intro L
  induction L with
  | nil => intro g k r c h; exact h
  | cons a L ih =>
    rcases a with ⟨a1, a2⟩
    intro g k r c h
    rw [List.foldl_cons]
    by_cases h0 : cell g a1 a2 = 0
    · rw [show neutral_strategy_step is_black probabilities u checkerboard (g, k) (a1, a2)
          = (g, k)
        from by simp only [neutral_strategy_step]; rw [if_pos h0]]
      exact ih g k r c h
    · have hne : ¬(a1 = r ∧ a2 = c) := by
        rintro ⟨h1, h2⟩
        rw [h1, h2] at h0
        exact h0 h
      rw [show neutral_strategy_step is_black probabilities u checkerboard (g, k) (a1, a2)
          = (setCell g a1 a2 (draw_flip (u k) (probLookup probabilities
              (if cell g a1 a2 = -1 then 2 else (cell g a1 a2).toNat)
              ((compute_neighbour_sum_neutral is_black checkerboard a1 a2 + 4).toNat))),
            k + 1)
        from by simp only [neutral_strategy_step]; rw [if_neg h0]]
      exact ih _ _ r c (by rw [cell_setCell_of_ne _ _ _ _ _ _ hne]; exact h)

lemma neutral_fold_pm (is_black : Bool) (probabilities : List (List ℝ))
    (u : ℕ → ℝ) (checkerboard : Grid) :
    ∀ (L : List (ℕ × ℕ)) (g : Grid) (k r c : ℕ),
      (cell g r c = 1 ∨ cell g r c = -1) →
      (cell ((L.foldl (neutral_strategy_step is_black probabilities u checkerboard)
          (g, k)).1) r c = 1
        ∨ cell ((L.foldl (neutral_strategy_step is_black probabilities u checkerboard)
          (g, k)).1) r c = -1) := by
  intro L
  induction L with
  | nil => intro g k r c h; exact h
  | cons a L ih =>
    rcases a with ⟨a1, a2⟩
    intro g k r c h
    rw [List.foldl_cons]
    by_cases h0 : cell g a1 a2 = 0
    · rw [show neutral_strategy_step is_black probabilities u checkerboard (g, k) (a1, a2)
          = (g, k)
        from by simp only [neutral_strategy_step]; rw [if_pos h0]]
      exact ih g k r c h
    · rw [show neutral_strategy_step is_black probabilities u checkerboard (g, k) (a1, a2)
          = (setCell g a1 a2 (draw_flip (u k) (probLookup probabilities
              (if cell g a1 a2 = -1 then 2 else (cell g a1 a2).toNat)
              ((compute_neighbour_sum_neutral is_black checkerboard a1 a2 + 4).toNat))),
            k + 1)
        from by simp only [neutral_strategy_step]; rw [if_neg h0]]
      refine ih _ _ r c ?_
      by_cases hne : a1 = r ∧ a2 = c
      · rcases hne with ⟨he1, he2⟩
        subst he1
        subst he2
        rcases cell_setCell_self_or g a1 a2 (draw_flip (u k) (probLookup probabilities
            (if cell g a1 a2 = -1 then 2 else (cell g a1 a2).toNat)
            ((compute_neighbour_sum_neutral is_black checkerboard a1 a2 + 4).toNat)))
          with hv | hv
        · rw [hv]
          exact draw_flip_pm _ _
        · rw [hv]
          exact h
      · rw [cell_setCell_of_ne _ _ _ _ _ _ hne]
        exact h

lemma sweeps_neutral_cells (rnc ra : ℝ) (fr : ℚ) (H W : ℕ) (region : String)
    (exc : Bool) (u : ℕ → ℝ) :
    ∀ (n : ℕ) (b w : Grid) (k r c : ℕ),
      ((cell b r c = 0 →
        cell (sweeps_neutral rnc ra fr H W region exc u n (b, w, k)).1 r c = 0)
       ∧ ((cell b r c = 1 ∨ cell b r c = -1) →
        (cell (sweeps_neutral rnc ra fr H W region exc u n (b, w, k)).1 r c = 1
          ∨ cell (sweeps_neutral rnc ra fr H W region exc u n (b, w, k)).1 r c = -1)))
      ∧ ((cell w r c = 0 →
        cell (sweeps_neutral rnc ra fr H W region exc u n (b, w, k)).2.1 r c = 0)
       ∧ ((cell w r c = 1 ∨ cell w r c = -1) →
        (cell (sweeps_neutral rnc ra fr H W region exc u n (b, w, k)).2.1 r c = 1
          ∨ cell (sweeps_neutral rnc ra fr H W region exc u n (b, w, k)).2.1 r c = -1))) := by
  intro n
  induction n with
  | zero => intro b w k r c; exact ⟨⟨fun h => h, fun h => h⟩, ⟨fun h => h, fun h => h⟩⟩
  | succ n ih =>
    intro b w k r c
    have hstep : sweeps_neutral rnc ra fr H W region exc u (n + 1) (b, w, k)
        = sweeps_neutral rnc ra fr H W region exc u n
          ((update_strategies_neutral true
              (precompute_probabilities_neutral rnc
                (ra * |((gridSum b + gridSum w : ℤ) : ℝ)|
                  / ((2 * shape0 b * shape1 b : ℕ) : ℝ))) u b w k).1,
            (update_strategies_neutral false
              (precompute_probabilities_neutral rnc
                (ra * |((gridSum b + gridSum w : ℤ) : ℝ)|
                  / ((2 * shape0 b * shape1 b : ℕ) : ℝ))) u w
              (update_strategies_neutral true
                (precompute_probabilities_neutral rnc
                  (ra * |((gridSum b + gridSum w : ℤ) : ℝ)|
                    / ((2 * shape0 b * shape1 b : ℕ) : ℝ))) u b w k).1
              (update_strategies_neutral true
                (precompute_probabilities_neutral rnc
                  (ra * |((gridSum b + gridSum w : ℤ) : ℝ)|
                    / ((2 * shape0 b * shape1 b : ℕ) : ℝ))) u b w k).2).1,
            (update_strategies_neutral false
              (precompute_probabilities_neutral rnc
                (ra * |((gridSum b + gridSum w : ℤ) : ℝ)|
                  / ((2 * shape0 b * shape1 b : ℕ) : ℝ))) u w
              (update_strategies_neutral true
                (precompute_probabilities_neutral rnc
                  (ra * |((gridSum b + gridSum w : ℤ) : ℝ)|
                    / ((2 * shape0 b * shape1 b : ℕ) : ℝ))) u b w k).1
              (update_strategies_neutral true
                (precompute_probabilities_neutral rnc
                  (ra * |((gridSum b + gridSum w : ℤ) : ℝ)|
                    / ((2 * shape0 b * shape1 b : ℕ) : ℝ))) u b w k).2).2) := by
      rfl
    rw [hstep]
    constructor
    · constructor
      · intro h
        exact ((ih _ _ _ r c).1).1
          (neutral_fold_zero true _ u w _ b k r c h)
      · intro h
        exact ((ih _ _ _ r c).1).2
          (neutral_fold_pm true _ u w _ b k r c h)
    · constructor
      · intro h
        exact ((ih _ _ _ r c).2).1
          (neutral_fold_zero false _ u _ _ w _ r c h)
      · intro h
        exact ((ih _ _ _ r c).2).2
          (neutral_fold_pm false _ u _ _ w _ r c h)

lemma getD_prop {α : Type} {P : α → Prop} (l : List α) (d : α) (h : ∀ x ∈ l, P x)
    (hd : P d) (j : ℕ) : P (l.getD j d) := by
  rw [List.getD_eq_getElem?_getD]
  cases hl : l[j]? with
  | none => exact hd
  | some x => exact h x (List.getElem?_mem hl)

lemma mem_assign_spins (init_up : ℝ) (u : ℕ → ℝ) :
    ∀ (vals : List ℤ) (k : ℕ) (x : ℤ), x ∈ assign_spins init_up u vals k →
      x = 0 ∨ x = 1 ∨ x = -1 := by
  intro vals
  induction vals with
  | nil => intro k x hx; simp [assign_spins] at hx
  | cons v rest ih =>
    intro k x hx
    by_cases hv : v = 0
    · rw [show assign_spins init_up u (v :: rest) k = v :: assign_spins init_up u rest k
        from by simp only [assign_spins]; rw [if_pos hv]] at hx
      rcases List.mem_cons.mp hx with hx | hx
      · exact Or.inl (hx.trans hv)
      · exact ih k x hx
    · rw [show assign_spins init_up u (v :: rest) k
          = (if u k < init_up then 1 else -1) :: assign_spins init_up u rest (k + 1)
        from by simp only [assign_spins]; rw [if_neg hv]] at hx
      rcases List.mem_cons.mp hx with hx | hx
      · subst hx
        split
        · exact Or.inr (Or.inl rfl)
        · exact Or.inr (Or.inr rfl)
      · exact ih (k + 1) x hx

lemma init_neutral_cell_values (init_up : ℝ) (u : ℕ → ℝ)
    (grid_height grid_width : ℕ) (sel : List ℕ) (r c : ℕ) :
    (cell (init_spins_neutral init_up u grid_height grid_width sel).1 r c = 0
      ∨ cell (init_spins_neutral init_up u grid_height grid_width sel).1 r c = 1
      ∨ cell (init_spins_neutral init_up u grid_height grid_width sel).1 r c = -1)
    ∧ (cell (init_spins_neutral init_up u grid_height grid_width sel).2 r c = 0
      ∨ cell (init_spins_neutral init_up u grid_height grid_width sel).2 r c = 1
      ∨ cell (init_spins_neutral init_up u grid_height grid_width sel).2 r c = -1) := by
  have hflat : ∀ x ∈ assign_spins init_up u
      (neutral_base_flat grid_height grid_width sel) 0, x = 0 ∨ x = 1 ∨ x = -1 :=
    fun x hx => mem_assign_spins init_up u _ 0 x hx
  have hrows : ∀ (f : ℕ → ℤ) (n : ℕ), (∀ j, f j = 0 ∨ f j = 1 ∨ f j = -1) →
      ∀ x ∈ (List.range n).map f, x = 0 ∨ x = 1 ∨ x = -1 := by
    intro f n hf x hx
    rcases List.mem_map.mp hx with ⟨j, _, hj⟩
    exact hj ▸ hf j
  have hfull : ∀ i j, (assign_spins init_up u
        (neutral_base_flat grid_height grid_width sel) 0).getD (i * grid_width + j) 0 = 0
      ∨ (assign_spins init_up u
        (neutral_base_flat grid_height grid_width sel) 0).getD (i * grid_width + j) 0 = 1
      ∨ (assign_spins init_up u
        (neutral_base_flat grid_height grid_width sel) 0).getD (i * grid_width + j) 0 = -1 :=
    fun i j => getD_prop _ 0 hflat (Or.inl rfl) _
  constructor
  · simp only [init_spins_neutral, cell]
    refine getD_prop (P := fun x => x = 0 ∨ x = 1 ∨ x = -1) _ 0 ?_ (Or.inl rfl) c
    refine getD_prop (P := fun row => ∀ x ∈ row, x = 0 ∨ x = 1 ∨ x = -1) _ []
      ?_ (by intro x hx; simp at hx) r
    intro row hrow
    rcases List.mem_map.mp hrow with ⟨i, _, hi⟩
    subst hi
    exact hrows _ _
      (fun cc => getD_prop _ 0 (hrows _ _ (fun j => hfull i j)) (Or.inl rfl) _)
  · simp only [init_spins_neutral, cell]
    refine getD_prop (P := fun x => x = 0 ∨ x = 1 ∨ x = -1) _ 0 ?_ (Or.inl rfl) c
    refine getD_prop (P := fun row => ∀ x ∈ row, x = 0 ∨ x = 1 ∨ x = -1) _ []
      ?_ (by intro x hx; simp at hx) r
    intro row hrow
    rcases List.mem_map.mp hrow with ⟨i, _, hi⟩
    subst hi
    exact hrows _ _
      (fun cc => getD_prop _ 0 (hrows _ _ (fun j => hfull i j)) (Or.inl rfl) _)

/-- Claim C6, confirmed: in the neutral variant, for every configuration,
every selection, every draw stream and every number of sweeps, a cell that
is 0 at construction is still 0, and a cell that is nonzero at construction
is in {-1, +1}, in both sublattices. -/
theorem neutral_cells_invariant (init_up : ℝ) (u : ℕ → ℝ) (grid_height grid_width : ℕ)
    (sel : List ℕ) (rnc ra : ℝ) (fraction : ℚ) (region : String) (exc : Bool)
    (n r c : ℕ) :
    ((cell (init_spins_neutral init_up u grid_height grid_width sel).1 r c = 0 →
        cell (sweeps_neutral rnc ra fraction grid_height grid_width region exc u n
          ((init_spins_neutral init_up u grid_height grid_width sel).1,
           (init_spins_neutral init_up u grid_height grid_width sel).2, 0)).1 r c = 0)
      ∧ (cell (init_spins_neutral init_up u grid_height grid_width sel).1 r c ≠ 0 →
        (cell (sweeps_neutral rnc ra fraction grid_height grid_width region exc u n
          ((init_spins_neutral init_up u grid_height grid_width sel).1,
           (init_spins_neutral init_up u grid_height grid_width sel).2, 0)).1 r c = 1
         ∨ cell (sweeps_neutral rnc ra fraction grid_height grid_width region exc u n
          ((init_spins_neutral init_up u grid_height grid_width sel).1,
           (init_spins_neutral init_up u grid_height grid_width sel).2, 0)).1 r c = -1)))
    ∧ ((cell (init_spins_neutral init_up u grid_height grid_width sel).2 r c = 0 →
        cell (sweeps_neutral rnc ra fraction grid_height grid_width region exc u n
          ((init_spins_neutral init_up u grid_height grid_width sel).1,
           (init_spins_neutral init_up u grid_height grid_width sel).2, 0)).2.1 r c = 0)
      ∧ (cell (init_spins_neutral init_up u grid_height grid_width sel).2 r c ≠ 0 →
        (cell (sweeps_neutral rnc ra fraction grid_height grid_width region exc u n
          ((init_spins_neutral init_up u grid_height grid_width sel).1,
           (init_spins_neutral init_up u grid_height grid_width sel).2, 0)).2.1 r c = 1
         ∨ cell (sweeps_neutral rnc ra fraction grid_height grid_width region exc u n
          ((init_spins_neutral init_up u grid_height grid_width sel).1,
           (init_spins_neutral init_up u grid_height grid_width sel).2, 0)).2.1 r c = -1))) := by
  have hv := init_neutral_cell_values init_up u grid_height grid_width sel r c
  have hs := sweeps_neutral_cells rnc ra fraction grid_height grid_width region exc u n
    (init_spins_neutral init_up u grid_height grid_width sel).1
    (init_spins_neutral init_up u grid_height grid_width sel).2 0 r c
  exact ⟨⟨hs.1.1, fun hnz => hs.1.2 (hv.1.resolve_left hnz)⟩,
    ⟨hs.2.1, fun hnz => hs.2.2 (hv.2.resolve_left hnz)⟩⟩

/-- Claim C5, confirmed: for every fraction in [0, 1] and every quadrant
region tag, the shock call succeeds, forces exactly the cells of that
quadrant of both sublattices to -1, leaves every other cell unchanged and
ignores the fraction; on the 4 x 4 all +1 grid, the top_left shock leaves
exactly the top-left quadrant of the reconstructed grid at -1. -/
theorem apply_shock_quadrant_frame (fraction : ℚ) (region : String)
    (black white : Grid) (sel_b sel_w : List ℕ)
    (h0 : 0 ≤ fraction) (h1 : fraction ≤ 1)
    (hreg : region = "top_left" ∨ region = "top_right" ∨ region = "bottom_left"
      ∨ region = "bottom_right") :
    (induce_local_crash fraction region black white sel_b sel_w
      = some (crash_region_set region black, crash_region_set region white))
    ∧ (∀ r c, r < shape0 black → c < shape1 black →
        cell (crash_region_set region black) r c
          = if in_crash_quadrant region (shape0 black / 2) (shape1 black / 2) r c
            then -1 else cell black r c)
    ∧ (∀ r c, r < shape0 white → c < shape1 white →
        cell (crash_region_set region white) r c
          = if in_crash_quadrant region (shape0 white / 2) (shape1 white / 2) r c
            then -1 else cell white r c)
    ∧ (induce_local_crash 1 "top_left"
          [[1, 1], [1, 1], [1, 1], [1, 1]] [[1, 1], [1, 1], [1, 1], [1, 1]] [] []
        = some ([[-1, 1], [-1, 1], [1, 1], [1, 1]], [[-1, 1], [-1, 1], [1, 1], [1, 1]]))
    ∧ (reconstruct_grid [[-1, 1], [-1, 1], [1, 1], [1, 1]] [[-1, 1], [-1, 1], [1, 1], [1, 1]]
        = [[-1, -1, 1, 1], [-1, -1, 1, 1], [1, 1, 1, 1], [1, 1, 1, 1]]) := by
  have hcell : ∀ (g : Grid) (r c : ℕ), r < shape0 g → c < shape1 g →
      cell (crash_region_set region g) r c
        = if in_crash_quadrant region (shape0 g / 2) (shape1 g / 2) r c
          then -1 else cell g r c := by
    intro g r c hr hc
    conv_lhs => rw [cell, crash_region_set]
    rw [getD_map_range _ _ [] r hr, getD_map_range _ _ 0 c hc]
  have hnr : ¬(region = "random") := by
    rcases hreg with h | h | h | h <;> subst h <;> decide
  refine ⟨?_, hcell black, hcell white, by decide, by decide⟩
  unfold induce_local_crash
  rw [if_neg hnr, if_pos hreg]

/-- Witness for claim C5 at fraction 1/2, region top_right, on 1 x 1
sublattices. -/
theorem apply_shock_quadrant_frame_witness :
    ((0 : ℚ) ≤ 1/2 ∧ (1/2 : ℚ) ≤ 1
      ∧ ("top_right" = "top_left" ∨ "top_right" = "top_right"
        ∨ "top_right" = "bottom_left" ∨ "top_right" = "bottom_right"))
    ∧ ((induce_local_crash (1/2) "top_right" [[1]] [[1]] [] []
        = some (crash_region_set "top_right" [[1]], crash_region_set "top_right" [[1]]))
      ∧ (∀ r c, r < shape0 [[(1 : ℤ)]] → c < shape1 [[(1 : ℤ)]] →
          cell (crash_region_set "top_right" [[1]]) r c
            = if in_crash_quadrant "top_right" (shape0 [[(1 : ℤ)]] / 2)
                (shape1 [[(1 : ℤ)]] / 2) r c
              then -1 else cell [[1]] r c)
      ∧ (∀ r c, r < shape0 [[(1 : ℤ)]] → c < shape1 [[(1 : ℤ)]] →
          cell (crash_region_set "top_right" [[1]]) r c
            = if in_crash_quadrant "top_right" (shape0 [[(1 : ℤ)]] / 2)
                (shape1 [[(1 : ℤ)]] / 2) r c
              then -1 else cell [[1]] r c)
      ∧ (induce_local_crash 1 "top_left"
            [[1, 1], [1, 1], [1, 1], [1, 1]] [[1, 1], [1, 1], [1, 1], [1, 1]] [] []
          = some ([[-1, 1], [-1, 1], [1, 1], [1, 1]], [[-1, 1], [-1, 1], [1, 1], [1, 1]]))
      ∧ (reconstruct_grid [[-1, 1], [-1, 1], [1, 1], [1, 1]]
            [[-1, 1], [-1, 1], [1, 1], [1, 1]]
          = [[-1, -1, 1, 1], [-1, -1, 1, 1], [1, 1, 1, 1], [1, 1, 1, 1]])) :=
  ⟨⟨by norm_num, by norm_num, Or.inr (Or.inl rfl)⟩,
    apply_shock_quadrant_frame (1/2) "top_right" [[1]] [[1]] [] []
      (by norm_num) (by norm_num) (Or.inr (Or.inl rfl))⟩

lemma probLookup_base (rnc mc : ℝ) (i j : ℕ) (h1 : i < 2) (h2 : j < 5) :
    probLookup (precompute_probabilities rnc mc) i j
      = 1 / (1 + Real.exp (rnc * (-4 + 2 * (j : ℝ)) - mc * (if i = 0 then -1 else 1))) := by
  unfold probLookup precompute_probabilities
  rw [getD_map_range 2 _ [] i h1, getD_map_range 5 _ 0 j h2]

lemma draw_flip_half (x : ℝ) :
    draw_flip (1/2) (1 / (1 + Real.exp x)) = if x < 0 then 1 else -1 := by
  unfold draw_flip
  have hp : (0 : ℝ) < 1 + Real.exp x := by positivity
  by_cases hx : x < 0
  · rw [if_pos hx, if_pos]
    rw [div_lt_div_iff (by norm_num) hp]
    have h1 : Real.exp x < 1 := Real.exp_lt_one_iff.mpr hx
    linarith
  · rw [if_neg hx, if_neg]
    rw [not_lt, div_le_div_iff hp (by norm_num)]
    have h1 : 1 ≤ Real.exp x := Real.one_le_exp_iff.mpr (not_lt.mp hx)
    linarith

lemma flip_table_half (mc : ℝ) (hmc : mc = 0) (i j : ℕ) (h1 : i < 2) (h2 : j < 5) :
    draw_flip (1/2) (probLookup (precompute_probabilities 1 mc) i j)
      = if j < 2 then 1 else -1 := by
  subst hmc
  rw [probLookup_base 1 0 i j h1 h2]
  rw [show (1 : ℝ) * (-4 + 2 * (j : ℝ)) - 0 * (if i = 0 then -1 else 1)
      = -4 + 2 * (j : ℝ) from by ring]
  rw [draw_flip_half]
  by_cases hj : j < 2
  · rw [if_pos hj, if_pos]
    have hjr : (j : ℝ) < 2 := by exact_mod_cast hj
    linarith
  · rw [if_neg hj, if_neg]
    have hjr : (2 : ℝ) ≤ (j : ℝ) := by exact_mod_cast not_lt.mp hj
    linarith

lemma step_b1 : strategy_step true (precompute_probabilities 1 0)
    (fun k => if k = 2 then (0 : ℝ) else if k < 4 then 1 else 1/2)
    [[-1], [1]] (([[1], [1]] : Grid), 4) (0, 0) = ([[-1], [1]], 5) := by
  have hu : (fun k => if k = 2 then (0 : ℝ) else if k < 4 then 1 else 1/2) 4 = 1/2 := by
    norm_num
  simp only [strategy_step, hu]
  rw [show compute_neighbour_sum true [[-1], [1]] 0 0 = 0 from by decide]
  rw [show ((cell ([[1], [1]] : Grid) 0 0 + 1) / 2).toNat = 1 from by decide]
  rw [show (((0 : ℤ) + 4) / 2).toNat = 2 from by decide]
  rw [flip_table_half 0 rfl 1 2 (by norm_num) (by norm_num)]
  rw [show ((if (2 : ℕ) < 2 then (1 : ℤ) else -1)) = -1 from by decide]
  rw [show setCell ([[1], [1]] : Grid) 0 0 (-1) = [[-1], [1]] from by decide]

lemma step_b2 : strategy_step true (precompute_probabilities 1 0)
    (fun k => if k = 2 then (0 : ℝ) else if k < 4 then 1 else 1/2)
    [[-1], [1]] (([[-1], [1]] : Grid), 5) (1, 0) = ([[-1], [-1]], 6) := by
  have hu : (fun k => if k = 2 then (0 : ℝ) else if k < 4 then 1 else 1/2) 5 = 1/2 := by
    norm_num
  simp only [strategy_step, hu]
  rw [show compute_neighbour_sum true [[-1], [1]] 1 0 = 0 from by decide]
  rw [show ((cell ([[-1], [1]] : Grid) 1 0 + 1) / 2).toNat = 1 from by decide]
  rw [show (((0 : ℤ) + 4) / 2).toNat = 2 from by decide]
  rw [flip_table_half 0 rfl 1 2 (by norm_num) (by norm_num)]
  rw [show ((if (2 : ℕ) < 2 then (1 : ℤ) else -1)) = -1 from by decide]
  rw [show setCell ([[-1], [1]] : Grid) 1 0 (-1) = [[-1], [-1]] from by decide]

lemma step_w1 : strategy_step false (precompute_probabilities 1 0)
    (fun k => if k = 2 then (0 : ℝ) else if k < 4 then 1 else 1/2)
    [[-1], [-1]] (([[-1], [1]] : Grid), 6) (0, 0) = ([[1], [1]], 7) := by
  have hu : (fun k => if k = 2 then (0 : ℝ) else if k < 4 then 1 else 1/2) 6 = 1/2 := by
    norm_num
  simp only [strategy_step, hu]
  rw [show compute_neighbour_sum false [[-1], [-1]] 0 0 = -4 from by decide]
  rw [show ((cell ([[-1], [1]] : Grid) 0 0 + 1) / 2).toNat = 0 from by decide]
  rw [show (((-4 : ℤ) + 4) / 2).toNat = 0 from by decide]
  rw [flip_table_half 0 rfl 0 0 (by norm_num) (by norm_num)]
  rw [show ((if (0 : ℕ) < 2 then (1 : ℤ) else -1)) = 1 from by decide]
  rw [show setCell ([[-1], [1]] : Grid) 0 0 1 = [[1], [1]] from by decide]

lemma step_w2 : strategy_step false (precompute_probabilities 1 0)
    (fun k => if k = 2 then (0 : ℝ) else if k < 4 then 1 else 1/2)
    [[-1], [-1]] (([[1], [1]] : Grid), 7) (1, 0) = ([[1], [1]], 8) := by
  have hu : (fun k => if k = 2 then (0 : ℝ) else if k < 4 then 1 else 1/2) 7 = 1/2 := by
    norm_num
  simp only [strategy_step, hu]
  rw [show compute_neighbour_sum false [[-1], [-1]] 1 0 = -4 from by decide]
  rw [show ((cell ([[1], [1]] : Grid) 1 0 + 1) / 2).toNat = 1 from by decide]
  rw [show (((-4 : ℤ) + 4) / 2).toNat = 0 from by decide]
  rw [flip_table_half 0 rfl 1 0 (by norm_num) (by norm_num)]
  rw [show ((if (0 : ℕ) < 2 then (1 : ℤ) else -1)) = 1 from by decide]
  rw [show setCell ([[1], [1]] : Grid) 1 0 1 = [[1], [1]] from by decide]

lemma run_eval_array :
    update 1 0 (fun k => if k = 2 then (0 : ℝ) else if k < 4 then 1 else 1/2)
      [[1], [1]] [[-1], [1]] 4
      = { black := [[-1], [-1]], white := [[1], [1]],
          magnetization := NpDiv.val (1/2), draws := 8 } := by
  simp only [update, zero_mul, zero_div]
  have hphase_b : update_strategies true (precompute_probabilities 1 0)
      (fun k => if k = 2 then (0 : ℝ) else if k < 4 then 1 else 1/2)
      [[1], [1]] [[-1], [1]] 4 = ([[-1], [-1]], 6) := by
    unfold update_strategies
    rw [show positions (shape0 ([[1], [1]] : Grid)) (shape1 ([[1], [1]] : Grid))
        = [(0, 0), (1, 0)] from by decide]
    rw [List.foldl_cons, step_b1, List.foldl_cons, step_b2, List.foldl_nil]
  rw [hphase_b]
  have hphase_w : update_strategies false (precompute_probabilities 1 0)
      (fun k => if k = 2 then (0 : ℝ) else if k < 4 then 1 else 1/2)
      [[-1], [1]] [[-1], [-1]] 6 = ([[1], [1]], 8) := by
    unfold update_strategies
    rw [show positions (shape0 ([[-1], [1]] : Grid)) (shape1 ([[-1], [1]] : Grid))
        = [(0, 0), (1, 0)] from by decide]
    rw [List.foldl_cons, step_w1, List.foldl_cons, step_w2, List.foldl_nil]
  rw [hphase_w]
  rw [show (2 * shape0 ([[1], [1]] : Grid) * shape1 ([[1], [1]] : Grid)) = 4 from by decide]
  rw [show gridSum [[1], [1]] + gridSum [[-1], [1]] = 2 from by decide]
  norm_num

lemma tstep_b1 : trader_step 2 true (precompute_probabilities 1 0)
    (fun k => if k = 2 then (0 : ℝ) else if k < 4 then 1 else 1/2)
    [⟨0, 0, -1, false⟩, ⟨1, 0, 1, false⟩] ([], 4) ⟨0, 0, 1, true⟩
    = ([⟨0, 0, -1, true⟩], 5) := by
  have hu : (fun k => if k = 2 then (0 : ℝ) else if k < 4 then 1 else 1/2) 4 = 1/2 := by
    norm_num
  simp only [trader_step, hu]
  rw [show compute_neighbour_sum_traders 2 ⟨0, 0, 1, true⟩
      [⟨0, 0, -1, false⟩, ⟨1, 0, 1, false⟩] true = 0 from by decide]
  rw [show (((0 : ℤ) + 4) / 2).toNat = 2 from by decide]
  rw [if_pos trivial]
  rw [flip_table_half 0 rfl 1 2 (by norm_num) (by norm_num)]
  rw [show ((if (2 : ℕ) < 2 then (1 : ℤ) else -1)) = -1 from by decide]
  rfl

lemma tstep_b2 : trader_step 2 true (precompute_probabilities 1 0)
    (fun k => if k = 2 then (0 : ℝ) else if k < 4 then 1 else 1/2)
    [⟨0, 0, -1, false⟩, ⟨1, 0, 1, false⟩] ([⟨0, 0, -1, true⟩], 5) ⟨1, 0, 1, true⟩
    = ([⟨0, 0, -1, true⟩, ⟨1, 0, 1, true⟩], 6) := by
  have hu : (fun k => if k = 2 then (0 : ℝ) else if k < 4 then 1 else 1/2) 5 = 1/2 := by
    norm_num
  simp only [trader_step, hu]
  rw [show compute_neighbour_sum_traders 2 ⟨1, 0, 1, true⟩
      [⟨0, 0, -1, false⟩, ⟨1, 0, 1, false⟩] true = -2 from by decide]
  rw [show (((-2 : ℤ) + 4) / 2).toNat = 1 from by decide]
  rw [if_pos trivial]
  rw [flip_table_half 0 rfl 1 1 (by norm_num) (by norm_num)]
  rw [show ((if (1 : ℕ) < 2 then (1 : ℤ) else -1)) = 1 from by decide]
  rfl

lemma tstep_w1 : trader_step 2 false (precompute_probabilities 1 0)
    (fun k => if k = 2 then (0 : ℝ) else if k < 4 then 1 else 1/2)
    [⟨0, 0, -1, true⟩, ⟨1, 0, 1, true⟩] ([], 6) ⟨0, 0, -1, false⟩
    = ([⟨0, 0, -1, false⟩], 7) := by
  have hu : (fun k => if k = 2 then (0 : ℝ) else if k < 4 then 1 else 1/2) 6 = 1/2 := by
    norm_num
  simp only [trader_step, hu]
  rw [show compute_neighbour_sum_traders 2 ⟨0, 0, -1, false⟩
      [⟨0, 0, -1, true⟩, ⟨1, 0, 1, true⟩] false = 2 from by decide]
  rw [show (((2 : ℤ) + 4) / 2).toNat = 3 from by decide]
  rw [show ((if (Trader.mk 0 0 (-1) false).spin = 1 then (1 : ℕ) else 0)) = 0 from by decide]
  rw [flip_table_half 0 rfl 0 3 (by norm_num) (by norm_num)]
  rw [show ((if (3 : ℕ) < 2 then (1 : ℤ) else -1)) = -1 from by decide]
  rfl

lemma tstep_w2 : trader_step 2 false (precompute_probabilities 1 0)
    (fun k => if k = 2 then (0 : ℝ) else if k < 4 then 1 else 1/2)
    [⟨0, 0, -1, true⟩, ⟨1, 0, 1, true⟩] ([⟨0, 0, -1, false⟩], 7) ⟨1, 0, 1, false⟩
    = ([⟨0, 0, -1, false⟩, ⟨1, 0, -1, false⟩], 8) := by
  have hu : (fun k => if k = 2 then (0 : ℝ) else if k < 4 then 1 else 1/2) 7 = 1/2 := by
    norm_num
  simp only [trader_step, hu]
  rw [show compute_neighbour_sum_traders 2 ⟨1, 0, 1, false⟩
      [⟨0, 0, -1, true⟩, ⟨1, 0, 1, true⟩] false = 0 from by decide]
  rw [show (((0 : ℤ) + 4) / 2).toNat = 2 from by decide]
  rw [if_pos trivial]
  rw [flip_table_half 0 rfl 1 2 (by norm_num) (by norm_num)]
  rw [show ((if (2 : ℕ) < 2 then (1 : ℤ) else -1)) = -1 from by decide]
  rfl

lemma run_eval_traders :
    update_traders 1 0 2 (fun k => if k = 2 then (0 : ℝ) else if k < 4 then 1 else 1/2)
      [⟨0, 0, 1, true⟩, ⟨1, 0, 1, true⟩] [⟨0, 0, -1, false⟩, ⟨1, 0, 1, false⟩] 4
      = { traders_black := [⟨0, 0, -1, true⟩, ⟨1, 0, 1, true⟩],
          traders_white := [⟨0, 0, -1, false⟩, ⟨1, 0, -1, false⟩],
          magnetization := NpDiv.val (1/2), draws := 8 } := by
  simp only [update_traders, zero_mul, zero_div]
  have hb : update_subgrid_traders 2 true (precompute_probabilities 1 0)
      (fun k => if k = 2 then (0 : ℝ) else if k < 4 then 1 else 1/2)
      [⟨0, 0, 1, true⟩, ⟨1, 0, 1, true⟩] [⟨0, 0, -1, false⟩, ⟨1, 0, 1, false⟩] 4
      = ([⟨0, 0, -1, true⟩, ⟨1, 0, 1, true⟩], 6) := by
    unfold update_subgrid_traders
    rw [List.foldl_cons, tstep_b1, List.foldl_cons, tstep_b2, List.foldl_nil]
  rw [hb]
  have hw : update_subgrid_traders 2 false (precompute_probabilities 1 0)
      (fun k => if k = 2 then (0 : ℝ) else if k < 4 then 1 else 1/2)
      [⟨0, 0, -1, false⟩, ⟨1, 0, 1, false⟩] [⟨0, 0, -1, true⟩, ⟨1, 0, 1, true⟩] 6
      = ([⟨0, 0, -1, false⟩, ⟨1, 0, -1, false⟩], 8) := by
    unfold update_subgrid_traders
    rw [List.foldl_cons, tstep_w1, List.foldl_cons, tstep_w2, List.foldl_nil]
  rw [hw]
  norm_num

lemma cell_init_color_arr (init_up : ℝ) (u : ℕ → ℝ) (k0 rows cols r c : ℕ)
    (hr : r < rows) (hc : c < cols) :
    cell (init_color_arr init_up u k0 rows cols) r c
      = if u (k0 + r * cols + c) < init_up then -1 else 1 := by
  unfold cell init_color_arr
  rw [getD_map_range rows _ [] r hr, getD_map_range cols _ 0 c hc]

lemma run_init_array :
    init_spins (1/2) (fun k => if k = 2 then (0 : ℝ) else if k < 4 then 1 else 1/2) 2 2
      = ([[1], [1]], [[-1], [1]]) := by
  unfold init_spins init_color_arr
  rw [show List.range 2 = [0, 1] from by decide, show List.range 1 = [0] from by decide]
  simp only [List.map_cons, List.map_nil]
  norm_num

lemma run_init_traders_black :
    init_traders (1/2) (fun k => if k = 2 then (0 : ℝ) else if k < 4 then 1 else 1/2)
      0 2 1 true = [⟨0, 0, 1, true⟩, ⟨1, 0, 1, true⟩] := by
  unfold init_traders
  rw [show positions 2 1 = [(0, 0), (1, 0)] from by decide]
  simp only [List.map_cons, List.map_nil]
  norm_num

lemma run_init_traders_white :
    init_traders (1/2) (fun k => if k = 2 then (0 : ℝ) else if k < 4 then 1 else 1/2)
      2 2 1 false = [⟨0, 0, -1, false⟩, ⟨1, 0, 1, false⟩] := by
  unfold init_traders
  rw [show positions 2 1 = [(0, 0), (1, 0)] from by decide]
  simp only [List.map_cons, List.map_nil]
  norm_num

/-- Counterexample to claim C9 as stated: one identical draw stream (draws
1, 1, 0, 1 during construction, every later draw 1/2) on one 2 x 2 grid,
init_up 1/2, neighbor coupling 1, alpha 0. Construction gives both engines
the same state (black all +1, white (0,0) = -1, (1,0) = +1), but after one
sweep the array engine has black = [[-1], [-1]] while the trader engine has
the black trader at (1, 0) with spin +1: its left horizontal wrap read the
flat index 1 * 1 - 1 = 0, the previous row, instead of its own row. -/
theorem trader_refinement_counterexample :
    (cell (update 1 0
        (fun k => if k = 2 then (0 : ℝ) else if k < 4 then 1 else 1/2)
        (init_spins (1/2)
          (fun k => if k = 2 then (0 : ℝ) else if k < 4 then 1 else 1/2) 2 2).1
        (init_spins (1/2)
          (fun k => if k = 2 then (0 : ℝ) else if k < 4 then 1 else 1/2) 2 2).2
        4).black 1 0 = -1)
    ∧ (((update_traders 1 0 2
        (fun k => if k = 2 then (0 : ℝ) else if k < 4 then 1 else 1/2)
        (init_traders (1/2)
          (fun k => if k = 2 then (0 : ℝ) else if k < 4 then 1 else 1/2) 0 2 1 true)
        (init_traders (1/2)
          (fun k => if k = 2 then (0 : ℝ) else if k < 4 then 1 else 1/2) 2 2 1 false)
        4).traders_black.getD 1 default).row = 1
      ∧ ((update_traders 1 0 2
        (fun k => if k = 2 then (0 : ℝ) else if k < 4 then 1 else 1/2)
        (init_traders (1/2)
          (fun k => if k = 2 then (0 : ℝ) else if k < 4 then 1 else 1/2) 0 2 1 true)
        (init_traders (1/2)
          (fun k => if k = 2 then (0 : ℝ) else if k < 4 then 1 else 1/2) 2 2 1 false)
        4).traders_black.getD 1 default).col = 0
      ∧ ((update_traders 1 0 2
        (fun k => if k = 2 then (0 : ℝ) else if k < 4 then 1 else 1/2)
        (init_traders (1/2)
          (fun k => if k = 2 then (0 : ℝ) else if k < 4 then 1 else 1/2) 0 2 1 true)
        (init_traders (1/2)
          (fun k => if k = 2 then (0 : ℝ) else if k < 4 then 1 else 1/2) 2 2 1 false)
        4).traders_black.getD 1 default).spin = 1) := by
  rw [run_init_array, run_init_traders_black, run_init_traders_white]
  rw [run_eval_array, run_eval_traders]
  exact ⟨by decide, by decide, by decide, by decide⟩

lemma mem_positions (h w : ℕ) (rc : ℕ × ℕ) (hm : rc ∈ positions h w) :
    rc.1 < h ∧ rc.2 < w := by
  unfold positions at hm
  rcases List.mem_flatten.mp hm with ⟨block, hb, hrc⟩
  rcases List.mem_map.mp hb with ⟨r, hr, rfl⟩
  rcases List.mem_map.mp hrc with ⟨c, hc, rfl⟩
  exact ⟨List.mem_range.mp hr, List.mem_range.mp hc⟩

lemma trader_spin_at_nonneg (all : List Trader) (g : Grid) (H cw : ℕ)
    (hcorr : ∀ r2, r2 < H → ∀ c2, c2 < cw →
      (all.getD (r2 * cw + c2) default).spin = cell g r2 c2)
    (r2 c2 : ℕ) (hr2 : r2 < H) (hc2 : c2 < cw) :
    trader_spin_at all ((r2 : ℤ) * (cw : ℤ) + (c2 : ℤ)) = cell g r2 c2 := by
  unfold trader_spin_at
  rw [show pyIdx all.length ((r2 : ℤ) * (cw : ℤ) + (c2 : ℤ)) = r2 * cw + c2 from by
    unfold pyIdx; split_ifs with h1
    · omega
    · omega]
  exact hcorr r2 hr2 c2 hc2

lemma trader_neighbour_sum_agrees (g : Grid) (grid_height color_width : ℕ)
    (all : List Trader) (is_black : Bool) (t : Trader) (r c : ℕ)
    (h0 : 0 < grid_height)
    (hs0 : shape0 g = grid_height) (hs1 : shape1 g = color_width)
    (hlen : all.length = grid_height * color_width)
    (hcorr : ∀ r2, r2 < grid_height → ∀ c2, c2 < color_width →
      (all.getD (r2 * color_width + c2) default).spin = cell g r2 c2)
    (hrow : t.row = r) (hcol : t.col = c)
    (hr : r < grid_height) (hc : c < color_width)
    (hsafe : (if is_black = true then r % 2 = 0 else r % 2 = 1) ∨ c ≠ 0) :
    compute_neighbour_sum_traders grid_height t all is_black
      = compute_neighbour_sum is_black g r c := by
  have hcw : 0 < color_width := by omega
  have hgw : all.length / grid_height = color_width := by
    rw [hlen, Nat.mul_div_cancel_left _ h0]
  simp only [compute_neighbour_sum_traders, compute_neighbour_sum, npGet, hrow, hcol,
    hgw, hs0, hs1]
  have hupper : trader_spin_at all (((r : ℤ) - 1) * (color_width : ℤ) + (c : ℤ))
      = cell g (pyIdx grid_height ((r : ℤ) - 1)) c := by
    rcases Nat.eq_zero_or_pos r with hr0 | hr0
    · subst hr0
      rw [show (((0 : ℕ) : ℤ) - 1) * (color_width : ℤ) + (c : ℤ)
          = -(color_width : ℤ) + (c : ℤ) from by push_cast; ring]
      unfold trader_spin_at
      have hbound : color_width ≤ grid_height * color_width :=
        Nat.le_mul_of_pos_left _ h0
      rw [show pyIdx all.length (-(color_width : ℤ) + (c : ℤ))
          = (grid_height - 1) * color_width + c from by
        unfold pyIdx
        rw [if_pos (by omega : -(color_width : ℤ) + (c : ℤ) < 0), hlen]
        rw [show (grid_height - 1) * color_width + c
            = grid_height * color_width - color_width + c from by
          rw [Nat.sub_mul, one_mul]]
        omega]
      rw [show pyIdx grid_height (((0 : ℕ) : ℤ) - 1) = grid_height - 1 from by
        unfold pyIdx; split_ifs with h1
        · omega
        · omega]
      exact hcorr _ (by omega) _ hc
    · rw [show ((r : ℤ) - 1) = ((r - 1 : ℕ) : ℤ) from by omega]
      rw [trader_spin_at_nonneg all g grid_height color_width hcorr _ _ (by omega) hc]
      rw [pyIdx_ofNat]
  have hlower : trader_spin_at all
        ((if r + 1 < grid_height then ((r : ℤ) + 1) else 0) * (color_width : ℤ) + (c : ℤ))
      = cell g (pyIdx grid_height (if r + 1 < grid_height then ((r : ℤ) + 1) else 0)) c := by
    by_cases hlt : r + 1 < grid_height
    · rw [if_pos hlt]
      rw [show ((r : ℤ) + 1) * (color_width : ℤ) + (c : ℤ)
          = ((r + 1 : ℕ) : ℤ) * (color_width : ℤ) + ((c : ℕ) : ℤ) from by push_cast; ring]
      rw [trader_spin_at_nonneg all g grid_height color_width hcorr _ _ (by omega) hc]
      rw [show pyIdx grid_height ((r : ℤ) + 1) = r + 1 from by
        unfold pyIdx; split_ifs with h1
        · omega
        · omega]
    · rw [if_neg hlt]
      rw [show ((0 : ℤ)) * (color_width : ℤ) + (c : ℤ)
          = (((0 : ℕ)) : ℤ) * (color_width : ℤ) + ((c : ℕ) : ℤ) from by push_cast; ring]
      rw [trader_spin_at_nonneg all g grid_height color_width hcorr _ _ (by omega) hc]
      rw [show pyIdx grid_height (0 : ℤ) = 0 from by
        unfold pyIdx; split_ifs with h1
        · omega
        · omega]
  have hself : trader_spin_at all ((r : ℤ) * (color_width : ℤ) + (c : ℤ))
      = cell g (pyIdx grid_height ((r : ℕ) : ℤ)) c := by
    rw [trader_spin_at_nonneg all g grid_height color_width hcorr _ _ hr hc]
    rw [pyIdx_ofNat]
  rw [hupper, hlower, hself]
  have hhoriz : trader_spin_at all ((r : ℤ) * (color_width : ℤ)
        + (if is_black = true then
            (if r % 2 = 1 then ((c : ℤ) - 1)
             else (if c + 1 < color_width then ((c : ℤ) + 1) else 0))
          else
            (if r % 2 = 1 then (if c + 1 < color_width then ((c : ℤ) + 1) else 0)
             else ((c : ℤ) - 1))))
      = cell g r (pyIdx color_width
          (if is_black = true then
            (if r % 2 = 1 then ((c : ℤ) - 1)
             else (if c + 1 < color_width then ((c : ℤ) + 1) else 0))
          else
            (if r % 2 = 1 then (if c + 1 < color_width then ((c : ℤ) + 1) else 0)
             else ((c : ℤ) - 1)))) := by
    have hright : trader_spin_at all ((r : ℤ) * (color_width : ℤ)
          + (if c + 1 < color_width then ((c : ℤ) + 1) else 0))
        = cell g r (pyIdx color_width (if c + 1 < color_width then ((c : ℤ) + 1) else 0)) := by
      by_cases hlt : c + 1 < color_width
      · rw [if_pos hlt]
        rw [show (r : ℤ) * (color_width : ℤ) + ((c : ℤ) + 1)
            = ((r : ℕ) : ℤ) * (color_width : ℤ) + ((c + 1 : ℕ) : ℤ) from by push_cast; ring]
        rw [trader_spin_at_nonneg all g grid_height color_width hcorr _ _ hr (by omega)]
        rw [show pyIdx color_width ((c : ℤ) + 1) = c + 1 from by
          unfold pyIdx; split_ifs with h1
          · omega
          · omega]
      · rw [if_neg hlt]
        rw [show (r : ℤ) * (color_width : ℤ) + (0 : ℤ)
            = ((r : ℕ) : ℤ) * (color_width : ℤ) + (((0 : ℕ)) : ℤ) from by push_cast; ring]
        rw [trader_spin_at_nonneg all g grid_height color_width hcorr _ _ hr (by omega)]
        rw [show pyIdx color_width (0 : ℤ) = 0 from by
          unfold pyIdx; split_ifs with h1
          · omega
          · omega]
    have hleft : c ≠ 0 → trader_spin_at all ((r : ℤ) * (color_width : ℤ) + ((c : ℤ) - 1))
        = cell g r (pyIdx color_width ((c : ℤ) - 1)) := by
      intro hc0
      rw [show (r : ℤ) * (color_width : ℤ) + ((c : ℤ) - 1)
          = ((r : ℕ) : ℤ) * (color_width : ℤ) + ((c - 1 : ℕ) : ℤ) from by push_cast; omega]
      rw [trader_spin_at_nonneg all g grid_height color_width hcorr _ _ hr (by omega)]
      rw [show pyIdx color_width ((c : ℤ) - 1) = c - 1 from by
        unfold pyIdx; split_ifs with h1
        · omega
        · omega]
    cases is_black
    · by_cases hpar : r % 2 = 1
      · simp only [Bool.false_eq_true, if_false, if_pos hpar] at hsafe ⊢
        exact hright
      · simp only [Bool.false_eq_true, if_false, if_neg hpar] at hsafe ⊢
        have hc0 : c ≠ 0 := by
          rcases hsafe with h | h
          · omega
          · exact h
        exact hleft hc0
    · by_cases hpar : r % 2 = 1
      · simp only [if_true, if_pos hpar] at hsafe ⊢
        have hc0 : c ≠ 0 := by
          rcases hsafe with h | h
          · omega
          · exact h
        exact hleft hc0
      · simp only [if_true, if_neg hpar] at hsafe ⊢
        exact hright
  rw [hhoriz]
  simp only [pyIdx_ofNat]

lemma init_traders_eq (init_up : ℝ) (u : ℕ → ℝ) (k0 grid_height color_width : ℕ)
    (flag : Bool) :
    init_traders init_up u k0 grid_height color_width flag
      = (positions grid_height color_width).map (fun rc =>
          ⟨rc.1, rc.2,
            cell (init_color_arr init_up u k0 grid_height color_width) rc.1 rc.2, flag⟩) := by
  unfold init_traders
  refine List.map_congr_left ?_
  intro rc hm
  obtain ⟨h1, h2⟩ := mem_positions grid_height color_width rc hm
  rw [cell_init_color_arr init_up u k0 grid_height color_width rc.1 rc.2 h1 h2]

/-- Claim C9, corrected. The two implementations are not draw-for-draw
equivalent. What does hold: (1) construction is equivalent draw-for-draw --
the trader list is exactly the array initialisation read at the matching
coordinates; (2) whenever the chosen horizontal neighbour is not a left
wrap at column 0 (right column chosen, or col nonzero), the trader
neighbour sum of a cell agrees with the array neighbour sum on
corresponding states, so the engines agree except at left-wrapping cells.
-/
theorem trader_refinement_amended :
    (∀ (init_up : ℝ) (u : ℕ → ℝ) (k0 grid_height color_width : ℕ) (flag : Bool),
      init_traders init_up u k0 grid_height color_width flag
        = (positions grid_height color_width).map (fun rc =>
            ⟨rc.1, rc.2,
              cell (init_color_arr init_up u k0 grid_height color_width) rc.1 rc.2, flag⟩))
    ∧ (∀ (g : Grid) (grid_height color_width : ℕ) (all : List Trader) (is_black : Bool)
        (t : Trader) (r c : ℕ),
        0 < grid_height → shape0 g = grid_height → shape1 g = color_width →
        all.length = grid_height * color_width →
        (∀ r2, r2 < grid_height → ∀ c2, c2 < color_width →
          (all.getD (r2 * color_width + c2) default).spin = cell g r2 c2) →
        t.row = r → t.col = c → r < grid_height → c < color_width →
        ((if is_black = true then r % 2 = 0 else r % 2 = 1) ∨ c ≠ 0) →
        compute_neighbour_sum_traders grid_height t all is_black
          = compute_neighbour_sum is_black g r c) :=
  ⟨init_traders_eq,
   fun g gh cw all ib t r c h0 hs0 hs1 hlen hcorr hrow hcol hr hc hsafe =>
     trader_neighbour_sum_agrees g gh cw all ib t r c h0 hs0 hs1 hlen hcorr
       hrow hcol hr hc hsafe⟩

/-- Witness for the corrected claim C9 on a concrete 2 x 2 sublattice and
its corresponding trader list. -/
theorem trader_refinement_amended_witness :
    ((0 : ℕ) < 2
      ∧ shape0 [[1, -1], [1, 1]] = 2
      ∧ shape1 [[1, -1], [1, 1]] = 2
      ∧ ([⟨0, 0, 1, true⟩, ⟨0, 1, -1, true⟩, ⟨1, 0, 1, true⟩, ⟨1, 1, 1, true⟩]
          : List Trader).length = 2 * 2
      ∧ (∀ r2, r2 < 2 → ∀ c2, c2 < 2 →
          (([⟨0, 0, 1, true⟩, ⟨0, 1, -1, true⟩, ⟨1, 0, 1, true⟩, ⟨1, 1, 1, true⟩]
            : List Trader).getD (r2 * 2 + c2) default).spin
            = cell [[1, -1], [1, 1]] r2 c2)
      ∧ (Trader.mk 0 0 1 true).row = 0 ∧ (Trader.mk 0 0 1 true).col = 0
      ∧ (0 : ℕ) < 2 ∧ (0 : ℕ) < 2
      ∧ ((if true = true then 0 % 2 = 0 else 0 % 2 = 1) ∨ (0 : ℕ) ≠ 0))
    ∧ compute_neighbour_sum_traders 2 ⟨0, 0, 1, true⟩
        [⟨0, 0, 1, true⟩, ⟨0, 1, -1, true⟩, ⟨1, 0, 1, true⟩, ⟨1, 1, 1, true⟩] true
      = compute_neighbour_sum true [[1, -1], [1, 1]] 0 0 :=
  ⟨⟨by decide, by decide, by decide, by decide, by decide, rfl, rfl, by decide, by decide,
      by decide⟩,
    trader_refinement_amended.2 [[1, -1], [1, 1]] 2 2
      [⟨0, 0, 1, true⟩, ⟨0, 1, -1, true⟩, ⟨1, 0, 1, true⟩, ⟨1, 1, 1, true⟩] true
      ⟨0, 0, 1, true⟩ 0 0 (by decide) (by decide) (by decide) (by decide) (by decide)
      rfl rfl (by decide) (by decide) (by decide)⟩

/-- Claim C10, confirmed: in the base, neutral (both modes) and trader
variants the returned magnetization is computed from the sublattices as
they were at sweep entry; concretely, the 2 x 2 run returns 1/2 (the
pre-sweep sum 2 over 4 traders) even though the post-sweep state sums to 0.
-/
theorem magnetization_pre_sweep :
    (∀ (rnc ra : ℝ) (u : ℕ → ℝ) (black white : Grid) (k : ℕ),
      (update rnc ra u black white k).magnetization
        = (if 2 * shape0 black * shape1 black = 0 then NpDiv.nonfinite
           else NpDiv.val (((gridSum black + gridSum white : ℤ) : ℚ)
              / ((2 * shape0 black * shape1 black : ℕ) : ℚ))))
    ∧ (∀ (rnc ra : ℝ) (fr : ℚ) (gh gw : ℕ) (region : String) (exc : Bool) (u : ℕ → ℝ)
        (black white : Grid) (k : ℕ),
      (update_neutral rnc ra fr gh gw region exc u black white k).magnetization
        = (if exc = false then
            (if 2 * shape0 black * shape1 black = 0 then NpDiv.nonfinite
             else NpDiv.val (((gridSum black + gridSum white : ℤ) : ℚ)
                / ((2 * shape0 black * shape1 black : ℕ) : ℚ)))
          else
            (if ((2 * shape0 black * shape1 black : ℕ) : ℤ)
                - number_of_neutrals_used fr gh gw region = 0 then NpDiv.nonfinite
             else NpDiv.val (((gridSum black + gridSum white : ℤ) : ℚ)
                / ((((2 * shape0 black * shape1 black : ℕ) : ℤ)
                  - number_of_neutrals_used fr gh gw region : ℤ) : ℚ)))))
    ∧ (∀ (rnc ra : ℝ) (gh : ℕ) (u : ℕ → ℝ) (tb tw : List Trader) (k : ℕ),
      (update_traders rnc ra gh u tb tw k).magnetization
        = (if tb.length + tw.length = 0 then NpDiv.nonfinite
           else NpDiv.val ((((tb.map (fun t => t.spin)).sum
              + (tw.map (fun t => t.spin)).sum : ℤ) : ℚ)
              / ((tb.length + tw.length : ℕ) : ℚ))))
    ∧ ((update 1 0 (fun k => if k = 2 then (0 : ℝ) else if k < 4 then 1 else 1/2)
          [[1], [1]] [[-1], [1]] 4).magnetization = NpDiv.val (1/2)
      ∧ gridSum (update 1 0
          (fun k => if k = 2 then (0 : ℝ) else if k < 4 then 1 else 1/2)
          [[1], [1]] [[-1], [1]] 4).black
        + gridSum (update 1 0
          (fun k => if k = 2 then (0 : ℝ) else if k < 4 then 1 else 1/2)
          [[1], [1]] [[-1], [1]] 4).white = 0
      ∧ gridSum [[(1 : ℤ)], [1]] + gridSum [[-1], [1]] = 2) := by
  refine ⟨fun rnc ra u black white k => rfl, fun rnc ra fr gh gw region exc u black white k => rfl,
    fun rnc ra gh u tb tw k => rfl, ?_, ?_, by decide⟩
  · rw [run_eval_array]
  · rw [run_eval_array]
    decide

end SpinSim
